import Mathlib

/-!
Verification development for the `samm_editor` repository: a shallow embedding
of its data model (`model.py`), Turtle parser (`parser.py`), Turtle writer
(`writer.py`), JSON Schema generator (`json_schema_generator.py`) and JSON
instance generator (`json_instance_generator.py`), together with theorems
settling the specification claims.

Modelling conventions:
* Python values carried by models (enumeration values, default values,
  example values) are drawn from the closed universe `PyValue`
  (bool / int / float / str / Decimal); Python floats are represented as
  exact rationals (the float rounding of constants like `3.14` is immaterial
  to every property proved here, which only compares values symbolically).
* Python dicts are association lists with Python's insertion-order
  semantics: inserting an existing key updates it in place, a new key is
  appended (`dictInsert`).
* Unbounded recursion in the source (the parser's characteristic recursion,
  the generators' entity/characteristic recursion) is modelled with an
  explicit fuel parameter; every recursive call consumes one unit of fuel and
  running out of fuel yields `none`.  "For every fuel the result is `none`"
  is the embedding's rendering of non-termination.
* `raise ValueError("No Aspect found in the model")` in both generators is
  rendered as `Except.error GenError.missingAspect` (the spec's name for this
  abort is `MissingAspectError`).
-/

namespace SammEditor

/-- Universe of Python literal values occurring in SAMM models.  `vDecimal`
carries the decimal's digit string (Python `Decimal` round-trips through
`str`); `vFloat` carries the float's exact rational value. -/
inductive PyValue : Type where
  | vBool (b : Bool)
  | vInt (n : Int)
  | vFloat (q : ℚ)
  | vStr (s : String)
  | vDecimal (s : String)
  deriving DecidableEq, Repr

/-- JSON values produced by the generators.  Objects keep Python dict
insertion order. -/
inductive Json : Type where
  | null
  | jBool (b : Bool)
  | jInt (n : Int)
  | jRat (q : ℚ)
  | jStr (s : String)
  | jDec (s : String)
  | arr (xs : List Json)
  | obj (fields : List (String × Json))

/-- Python dict assignment `d[k] = v`: update in place if the key exists
(keeping its position), else append. -/
def dictInsert {α : Type} (d : List (String × α)) (k : String) (v : α) :
    List (String × α) :=
  match d with
  | [] => [(k, v)]
  | (k', v') :: rest =>
      if k' = k then (k, v) :: rest else (k', v') :: dictInsert rest k v

/-- Python dict lookup `d.get(k)`. -/
def dictLookup {α : Type} (d : List (String × α)) (k : String) : Option α :=
  match d with
  | [] => none
  | (k', v') :: rest => if k' = k then some v' else dictLookup rest k

/-- Python `dst.update(src)`: assign every `src` entry into `dst` in order. -/
def dictUpdate {α : Type} (dst src : List (String × α)) : List (String × α) :=
  src.foldl (fun acc kv => dictInsert acc kv.1 kv.2) dst

/-- `k in d` for a Python dict. -/
def dictContains {α : Type} (d : List (String × α)) (k : String) : Bool :=
  match d with
  | [] => false
  | (k', _) :: rest => k' = k || dictContains rest k

/-- A string with language tags (`model.py`, `LocalizedString`): mapping
from language tag to text. -/
structure LocalizedString : Type where
  values : List (String × String)
  deriving DecidableEq, Repr

mutual
/-- `model.py` `Characteristic` (all fields, including the `ModelElement`
base fields).  Mutually inductive with `Property` because a StructuredValue
characteristic owns a list of `elements` properties. -/
inductive Characteristic : Type where
  | mk :
      (urn : String) →
      (preferred_name : Option LocalizedString) →
      (description : Option LocalizedString) →
      (see : List String) →
      (data_type : Option String) →
      (characteristic_type : String) →
      (unit : Option String) →
      (values : List PyValue) →
      (default_value : Option PyValue) →
      (element_characteristic : Option Characteristic) →
      (left : Option Characteristic) →
      (right : Option Characteristic) →
      (deconstruction_rule : Option String) →
      (elements : List Property) →
      Characteristic

/-- `model.py` `Property`. -/
inductive Property : Type where
  | mk :
      (urn : String) →
      (preferred_name : Option LocalizedString) →
      (description : Option LocalizedString) →
      (see : List String) →
      (characteristic : Option Characteristic) →
      (example_value : Option PyValue) →
      (optional : Bool) →
      (payload_name : Option String) →
      (not_in_payload : Bool) →
      Property
end

namespace Characteristic

def urn : Characteristic → String
  | .mk u _ _ _ _ _ _ _ _ _ _ _ _ _ => u

def preferred_name : Characteristic → Option LocalizedString
  | .mk _ pn _ _ _ _ _ _ _ _ _ _ _ _ => pn

def description : Characteristic → Option LocalizedString
  | .mk _ _ d _ _ _ _ _ _ _ _ _ _ _ => d

def see : Characteristic → List String
  | .mk _ _ _ s _ _ _ _ _ _ _ _ _ _ => s

def data_type : Characteristic → Option String
  | .mk _ _ _ _ dt _ _ _ _ _ _ _ _ _ => dt

def characteristic_type : Characteristic → String
  | .mk _ _ _ _ _ ct _ _ _ _ _ _ _ _ => ct

def unit : Characteristic → Option String
  | .mk _ _ _ _ _ _ u _ _ _ _ _ _ _ => u

def values : Characteristic → List PyValue
  | .mk _ _ _ _ _ _ _ v _ _ _ _ _ _ => v

def default_value : Characteristic → Option PyValue
  | .mk _ _ _ _ _ _ _ _ dv _ _ _ _ _ => dv

def element_characteristic : Characteristic → Option Characteristic
  | .mk _ _ _ _ _ _ _ _ _ ec _ _ _ _ => ec

def left : Characteristic → Option Characteristic
  | .mk _ _ _ _ _ _ _ _ _ _ l _ _ _ => l

def right : Characteristic → Option Characteristic
  | .mk _ _ _ _ _ _ _ _ _ _ _ r _ _ => r

def deconstruction_rule : Characteristic → Option String
  | .mk _ _ _ _ _ _ _ _ _ _ _ _ dr _ => dr

def elements : Characteristic → List Property
  | .mk _ _ _ _ _ _ _ _ _ _ _ _ _ es => es

end Characteristic

namespace Property

def urn : Property → String
  | .mk u _ _ _ _ _ _ _ _ => u

def preferred_name : Property → Option LocalizedString
  | .mk _ pn _ _ _ _ _ _ _ => pn

def description : Property → Option LocalizedString
  | .mk _ _ d _ _ _ _ _ _ => d

def see : Property → List String
  | .mk _ _ _ s _ _ _ _ _ => s

def characteristic : Property → Option Characteristic
  | .mk _ _ _ _ c _ _ _ _ => c

def example_value : Property → Option PyValue
  | .mk _ _ _ _ _ ev _ _ _ => ev

def optional : Property → Bool
  | .mk _ _ _ _ _ _ o _ _ => o

def payload_name : Property → Option String
  | .mk _ _ _ _ _ _ _ pn _ => pn

def not_in_payload : Property → Bool
  | .mk _ _ _ _ _ _ _ _ nip => nip

end Property

/-- `model.py` `Entity`.  The source field `extends` is a Lean keyword, hence
`extendsUrn`. -/
structure Entity : Type where
  urn : String
  preferred_name : Option LocalizedString := none
  description : Option LocalizedString := none
  see : List String := []
  properties : List Property := []
  extendsUrn : Option String := none
  is_abstract : Bool := false

/-- `model.py` `Operation`. -/
structure Operation : Type where
  urn : String
  preferred_name : Option LocalizedString := none
  description : Option LocalizedString := none
  see : List String := []
  input_properties : List Property := []
  output_property : Option Property := none

/-- `model.py` `Event`. -/
structure Event : Type where
  urn : String
  preferred_name : Option LocalizedString := none
  description : Option LocalizedString := none
  see : List String := []
  parameters : List Property := []

/-- `model.py` `Aspect`. -/
structure Aspect : Type where
  urn : String
  preferred_name : Option LocalizedString := none
  description : Option LocalizedString := none
  see : List String := []
  properties : List Property := []
  operations : List Operation := []
  events : List Event := []

/-- `model.py` `SAMMModel`.  The source field `namespace` is a Lean keyword,
hence `namespaceUri`. -/
structure SAMMModel : Type where
  aspect : Option Aspect := none
  entities : List (String × Entity) := []
  characteristics : List (String × Characteristic) := []
  properties : List (String × Property) := []
  operations : List (String × Operation) := []
  events : List (String × Event) := []
  namespaceUri : String := ""
  prefixes : List (String × String) := []

/-- Python truthiness of `Optional[str]`: `None` and `""` are falsy
(`x or y` picks `y` for both). -/
def pyStrOr (o : Option String) (d : String) : String :=
  match o with
  | none => d
  | some s => if s = "" then d else s

/-- Digit character (`0`–`9`). -/
def digitChar (n : Nat) : Char := Char.ofNat (48 + n)

def natReprAux (fuel n : Nat) : List Char :=
  match fuel with
  | 0 => []
  | fuel + 1 =>
    if n < 10 then [digitChar n]
    else natReprAux fuel (n / 10) ++ [digitChar (n % 10)]

/-- Decimal representation of a natural number (`str(n)`). -/
def natRepr (n : Nat) : String := String.mk (natReprAux (n + 1) n)

/-- `str(n)` for a Python int. -/
def intRepr (n : Int) : String :=
  if n < 0 then "-" ++ natRepr n.natAbs else natRepr n.natAbs

/-- Lexical stand-in for `str(float)`.  Only its non-emptiness and
injectivity on the rational payload matter to the code paths modelled
here. -/
def ratRepr (q : ℚ) : String := intRepr q.num ++ "/" ++ natRepr q.den

/-- Python `c in s` for a single character. -/
def strContains (s : String) (c : Char) : Bool := s.toList.contains c

/-- Python `s.split(sep)[-1]` for a one-character separator: the suffix
after the last occurrence (the whole string when absent). -/
def afterLastChar (s : String) (sep : Char) : String :=
  String.mk ((s.toList.reverse.takeWhile (fun c => c ≠ sep)).reverse)

/-- Python `s.startswith(pre)`. -/
def strStartsWith (s pre : String) : Bool := pre.toList.isPrefixOf s.toList

/-- `_get_local_name` (identical in both generators): part after the last
`#`, else after the last `/`, else the whole URN. -/
def getLocalName (urn : String) : String :=
  if strContains urn '#' then afterLastChar urn '#'
  else if strContains urn '/' then afterLastChar urn '/'
  else urn

/-- `_is_entity` (identical in both generators): key test against the
entities registry. -/
def isEntity (model : SAMMModel) (type_uri : String) : Bool :=
  dictContains model.entities type_uri

/-- Digits of a decimal string to a natural number. -/
def digitsToNat (cs : List Char) : Nat :=
  cs.foldl (fun a c => a * 10 + (c.toNat - 48)) 0

/-- Exact rational value of a decimal digit string (models Python
`float(Decimal(s))`; the float rounding is immaterial here). -/
def ratOfDecimalString (s : String) : ℚ :=
  let (neg, cs) :=
    match s.toList with
    | '-' :: rest => (true, rest)
    | cs => (false, cs)
  let ip := cs.takeWhile (fun c => c ≠ '.')
  let fp := (cs.dropWhile (fun c => c ≠ '.')).drop 1
  let q : ℚ := (digitsToNat ip : ℚ) + (digitsToNat fp : ℚ) / ((10 : ℚ) ^ fp.length)
  if neg then -q else q

/-- Errors of the generators: the source raises
`ValueError("No Aspect found in the model")` when the aspect is absent (the
spec calls this abort `MissingAspectError`); `fuelExhausted` renders
non-termination of the unguarded recursion. -/
inductive GenError : Type where
  | missingAspect
  | fuelExhausted
  deriving DecidableEq, Repr

namespace JSONInstanceGenerator

/-- A Python value flowing into the generated instance unchanged. -/
def pyRaw : PyValue → Json
  | .vBool b => .jBool b
  | .vInt n => .jInt n
  | .vFloat q => .jRat q
  | .vStr s => .jStr s
  | .vDecimal s => .jDec s

/-- `_convert_value`: `Decimal` becomes `float`; scalars pass through (the
dict/list branches cannot arise for the scalar `PyValue` universe). -/
def pyConvert : PyValue → Json
  | .vDecimal s => .jRat (ratOfDecimalString s)
  | v => pyRaw v

/-- `_generate_default_value_for_type`: the fixed scalar default table,
keyed by the data type stripped of its namespace, offset by `index` for the
numeric rows. -/
def defaultValueForType (xsd_type : String) (index : Nat) : Json :=
  let local_type :=
    if strContains xsd_type '#' then afterLastChar xsd_type '#'
    else afterLastChar xsd_type ':'
  match local_type with
  | "boolean" => .jBool true
  | "string" => .jStr "example string"
  | "anyURI" => .jStr "https://example.com/resource"
  | "curie" => .jStr "ex:Resource"
  | "hexBinary" => .jStr "48656C6C6F"
  | "base64Binary" => .jStr "SGVsbG8gV29ybGQ="
  | "integer" => .jInt (42 + (index : Int))
  | "int" => .jInt (42 + (index : Int))
  | "long" => .jInt (1000 + (index : Int))
  | "short" => .jInt (10 + (index : Int))
  | "byte" => .jInt (1 + (index : Int))
  | "nonNegativeInteger" => .jInt (0 + (index : Int))
  | "positiveInteger" => .jInt (1 + (index : Int))
  | "unsignedLong" => .jInt (1000 + (index : Int))
  | "unsignedInt" => .jInt (100 + (index : Int))
  | "unsignedShort" => .jInt (10 + (index : Int))
  | "unsignedByte" => .jInt (1 + (index : Int))
  | "decimal" => .jRat (314 / 100 + (index : ℚ))
  | "float" => .jRat (3 / 2 + (index : ℚ) * (1 / 2))
  | "double" => .jRat (2718 / 1000 + (index : ℚ) * (1 / 10))
  | "date" => .jStr "2024-01-15"
  | "time" => .jStr "14:30:00"
  | "dateTime" => .jStr "2024-01-15T14:30:00Z"
  | "dateTimeStamp" => .jStr "2024-01-15T14:30:00Z"
  | "gYear" => .jStr "2024"
  | "gMonth" => .jStr "--01"
  | "gDay" => .jStr "---15"
  | "gYearMonth" => .jStr "2024-01"
  | "gMonthDay" => .jStr "--01-15"
  | "duration" => .jStr "P1Y2M3DT4H5M6S"
  | "dayTimeDuration" => .jStr "P1DT2H"
  | "yearMonthDuration" => .jStr "P1Y2M"
  | _ => .jStr "example_value"

/-- `_generate_enumeration_value`. -/
def generateEnumerationValue (char : Characteristic) : Json :=
  match char.default_value with
  | some dv => pyRaw dv
  | none =>
    match char.values with
    | v :: _ => pyRaw v
    | [] =>
      match char.data_type with
      | some dt => if dt = "" then .jStr "ENUM_VALUE" else defaultValueForType dt 0
      | none => .jStr "ENUM_VALUE"

/-- `_generate_multilanguage_value`. -/
def generateMultiLanguageValue : Json :=
  .obj [("en", .jStr "English text"), ("de", .jStr "Deutscher Text")]

/-- `_generate_scalar_value`. -/
def generateScalarValue (char : Characteristic) : Json :=
  match char.data_type with
  | some dt => if dt = "" then .jStr "example_value" else defaultValueForType dt 0
  | none => .jStr "example_value"

mutual

/-- `_generate_characteristic_value`: kind dispatch. -/
def generateCharacteristicValue (model : SAMMModel) (fuel : Nat)
    (char : Characteristic) : Option Json :=
  match fuel with
  | 0 => none
  | fuel + 1 =>
    let ct := char.characteristic_type
    if ct == "Collection" || ct == "List" || ct == "Set" || ct == "SortedSet"
        || ct == "TimeSeries" then
      generateCollectionValue model fuel char
    else if ct == "Either" then
      generateEitherValue model fuel char
    else if ct == "Enumeration" || ct == "State" then
      some (generateEnumerationValue char)
    else if ct == "SingleEntity"
        || (match char.data_type with
            | some dt => !(dt == "") && isEntity model dt
            | none => false) then
      generateEntityValue model fuel char
    else if ct == "MultiLanguageText" || char.data_type == some "rdf:langString" then
      some generateMultiLanguageValue
    else
      some (generateScalarValue char)
termination_by structural fuel

/-- Loop body of `_generate_collection_value` at index `i`. -/
def generateCollectionItem (model : SAMMModel) (fuel : Nat)
    (char : Characteristic) (i : Nat) : Option Json :=
  match fuel with
  | 0 => none
  | fuel + 1 =>
    match char.element_characteristic with
    | some ec => generateCharacteristicValue model fuel ec
    | none =>
      match char.data_type with
      | some dt =>
        if dt = "" then some (.jStr ("item" ++ natRepr (i + 1)))
        else if isEntity model dt then
          match dictLookup model.entities dt with
          | some entity => do
              let fields ← generateEntityInstance model fuel entity
              pure (.obj fields)
          | none => some (.obj [])
        else some (defaultValueForType dt i)
      | none => some (.jStr ("item" ++ natRepr (i + 1)))
termination_by structural fuel

/-- `_generate_collection_value`: `count = 2`, loop unrolled into its two
iterations. -/
def generateCollectionValue (model : SAMMModel) (fuel : Nat)
    (char : Characteristic) : Option Json :=
  match fuel with
  | 0 => none
  | fuel + 1 => do
    let item0 ← generateCollectionItem model fuel char 0
    let item1 ← generateCollectionItem model fuel char 1
    pure (.arr [item0, item1])
termination_by structural fuel

/-- `_generate_either_value`. -/
def generateEitherValue (model : SAMMModel) (fuel : Nat)
    (char : Characteristic) : Option Json :=
  match fuel with
  | 0 => none
  | fuel + 1 =>
    match char.right with
    | some r => do
        let v ← generateCharacteristicValue model fuel r
        pure (.obj [("right", v)])
    | none =>
      match char.left with
      | some l => do
          let v ← generateCharacteristicValue model fuel l
          pure (.obj [("left", v)])
      | none => some (.obj [("right", .jStr "value")])
termination_by structural fuel

/-- `_generate_entity_value`. -/
def generateEntityValue (model : SAMMModel) (fuel : Nat)
    (char : Characteristic) : Option Json :=
  match fuel with
  | 0 => none
  | fuel + 1 =>
    match char.data_type with
    | none => some (.obj [])
    | some dt =>
      if dt = "" || !isEntity model dt then some (.obj [])
      else
        match dictLookup model.entities dt with
        | none => some (.obj [])
        | some entity => do
            let fields ← generateEntityInstance model fuel entity
            pure (.obj fields)
termination_by structural fuel

/-- `_generate_entity_instance`: parent fields inlined first (no cycle
guard in the source — a cyclic `extends` chain recurses forever, rendered
here as `none` for every fuel), then own fields assigned over them. -/
def generateEntityInstance (model : SAMMModel) (fuel : Nat)
    (entity : Entity) : Option (List (String × Json)) :=
  match fuel with
  | 0 => none
  | fuel + 1 => do
    let start ←
      match entity.extendsUrn with
      | some pUrn =>
        if pUrn = "" then pure ([] : List (String × Json))
        else
          match dictLookup model.entities pUrn with
          | some parent => generateEntityInstance model fuel parent
          | none => pure ([] : List (String × Json))
      | none => pure ([] : List (String × Json))
    genPropFields model fuel entity.properties start
termination_by structural fuel

/-- The per-property value of the shared property loop: the converted
`example_value` when present, else the characteristic-derived value, else
`None`. -/
def genPropValue (model : SAMMModel) (fuel : Nat) (p : Property) : Option Json :=
  match fuel with
  | 0 => none
  | fuel + 1 =>
    match p.example_value with
    | some ev => pure (JSONInstanceGenerator.pyConvert ev)
    | none =>
      match p.characteristic with
      | some c => generateCharacteristicValue model fuel c
      | none => pure Json.null
termination_by structural fuel

/-- The property loop shared verbatim by `generate` and
`_generate_entity_instance`: skip `not_in_payload`, key by
`payload_name or local name`, value from `example_value`, else the
characteristic, else `None`. -/
def genPropFields (model : SAMMModel) (fuel : Nat)
    (props : List Property) (acc : List (String × Json)) :
    Option (List (String × Json)) :=
  match fuel with
  | 0 => none
  | fuel + 1 =>
    match props with
    | [] => some acc
    | p :: rest =>
      if p.not_in_payload then genPropFields model fuel rest acc
      else do
        let name := pyStrOr p.payload_name (getLocalName p.urn)
        let v ← genPropValue model fuel p
        genPropFields model fuel rest (dictInsert acc name v)
termination_by structural fuel

end

/-- `JSONInstanceGenerator.generate`. -/
def generate (model : SAMMModel) (fuel : Nat) : Except GenError Json :=
  match model.aspect with
  | none => .error .missingAspect
  | some aspect =>
    match genPropFields model fuel aspect.properties [] with
    | none => .error .fuelExhausted
    | some fields => .ok (.obj fields)

end JSONInstanceGenerator

namespace JSONSchemaGenerator

/-- The mutable `self.definitions` dict of the generator. -/
abbrev Defs := List (String × Json)

/-- A JSON-Schema fragment under construction (a Python dict). -/
abbrev SchemaDict := List (String × Json)

/-- `_get_english_text`: the `'en'` entry, else the `''` entry, else the
first value, else the empty string. -/
def getEnglishText (d : List (String × String)) : String :=
  match dictLookup d "en" with
  | some t => t
  | none =>
    match dictLookup d "" with
    | some t => t
    | none =>
      match d with
      | [] => ""
      | (_, t) :: _ => t

/-- `_xsd_to_json_type`: XSD scalar name (stripped of namespace) to a JSON
Schema fragment; unknown types default to `{type: string}`. -/
def xsdToJsonType (xsd_type : String) : SchemaDict :=
  let local_type :=
    if strContains xsd_type '#' then afterLastChar xsd_type '#'
    else afterLastChar xsd_type ':'
  match local_type with
  | "boolean" => [("type", .jStr "boolean")]
  | "string" => [("type", .jStr "string")]
  | "anyURI" => [("type", .jStr "string"), ("format", .jStr "uri")]
  | "curie" => [("type", .jStr "string")]
  | "hexBinary" => [("type", .jStr "string")]
  | "base64Binary" => [("type", .jStr "string"), ("contentEncoding", .jStr "base64")]
  | "integer" => [("type", .jStr "integer")]
  | "int" => [("type", .jStr "integer")]
  | "long" => [("type", .jStr "integer")]
  | "short" => [("type", .jStr "integer")]
  | "byte" => [("type", .jStr "integer")]
  | "nonNegativeInteger" => [("type", .jStr "integer"), ("minimum", .jInt 0)]
  | "positiveInteger" => [("type", .jStr "integer"), ("minimum", .jInt 1)]
  | "unsignedLong" => [("type", .jStr "integer"), ("minimum", .jInt 0)]
  | "unsignedInt" => [("type", .jStr "integer"), ("minimum", .jInt 0)]
  | "unsignedShort" => [("type", .jStr "integer"), ("minimum", .jInt 0)]
  | "unsignedByte" => [("type", .jStr "integer"), ("minimum", .jInt 0)]
  | "decimal" => [("type", .jStr "number")]
  | "float" => [("type", .jStr "number")]
  | "double" => [("type", .jStr "number")]
  | "date" => [("type", .jStr "string"), ("format", .jStr "date")]
  | "time" => [("type", .jStr "string"), ("format", .jStr "time")]
  | "dateTime" => [("type", .jStr "string"), ("format", .jStr "date-time")]
  | "dateTimeStamp" => [("type", .jStr "string"), ("format", .jStr "date-time")]
  | "gYear" => [("type", .jStr "string")]
  | "gMonth" => [("type", .jStr "string")]
  | "gDay" => [("type", .jStr "string")]
  | "gYearMonth" => [("type", .jStr "string")]
  | "gMonthDay" => [("type", .jStr "string")]
  | "duration" => [("type", .jStr "string")]
  | "dayTimeDuration" => [("type", .jStr "string")]
  | "yearMonthDuration" => [("type", .jStr "string")]
  | _ => [("type", .jStr "string")]

/-- `_generate_enumeration_schema`. -/
def generateEnumerationSchema (char : Characteristic) : SchemaDict :=
  let schema : SchemaDict := []
  let schema :=
    match char.values with
    | [] => schema
    | vs => dictInsert schema "enum" (.arr (vs.map JSONInstanceGenerator.pyRaw))
  match char.data_type with
  | some dt =>
    if dt = "" then schema
    else
      let base := xsdToJsonType dt
      match dictLookup base "type" with
      | some t => dictInsert schema "type" t
      | none => schema
  | none => schema

/-- `_generate_multilanguage_schema`. -/
def generateMultiLanguageSchema : SchemaDict :=
  [("type", .jStr "object"),
   ("patternProperties", .obj [("^[a-z]\x7b2\x7d(-[A-Z]\x7b2\x7d)?$", .obj [("type", .jStr "string")])]),
   ("additionalProperties", .jBool false)]

/-- `_generate_scalar_schema`. -/
def generateScalarSchema (char : Characteristic) : SchemaDict :=
  let schema : SchemaDict := []
  let schema :=
    match char.data_type with
    | some dt => if dt = "" then schema else dictUpdate schema (xsdToJsonType dt)
    | none => schema
  match char.description with
  | some d => dictInsert schema "description" (.jStr (getEnglishText d.values))
  | none => schema

/-- Finishing step of the per-entity / top-level property loop: the
`properties` key receives the accumulated dict in place; `required` is
appended only when non-empty. -/
def finishTarget (target : SchemaDict) (props : List (String × Json))
    (req : List String) : SchemaDict :=
  let t := dictInsert target "properties" (.obj props)
  if req.isEmpty then t else dictInsert t "required" (.arr (req.map .jStr))

mutual

/-- `_generate_characteristic_schema`: kind dispatch. -/
def generateCharacteristicSchema (model : SAMMModel) (fuel : Nat)
    (defs : Defs) (char : Characteristic) : Option (Defs × SchemaDict) :=
  match fuel with
  | 0 => none
  | fuel + 1 =>
    let ct := char.characteristic_type
    if ct == "Boolean" then
      some (defs, [("type", .jStr "boolean")])
    else if ct == "Collection" || ct == "List" || ct == "Set" || ct == "SortedSet"
        || ct == "TimeSeries" then
      generateCollectionSchema model fuel defs char
    else if ct == "Either" then
      generateEitherSchema model fuel defs char
    else if ct == "Enumeration" || ct == "State" then
      some (defs, generateEnumerationSchema char)
    else if ct == "SingleEntity"
        || (match char.data_type with
            | some dt => !(dt == "") && isEntity model dt
            | none => false) then
      generateEntitySchema model fuel defs char
    else if ct == "MultiLanguageText" || char.data_type == some "rdf:langString" then
      some (defs, generateMultiLanguageSchema)
    else
      some (defs, generateScalarSchema char)
termination_by structural fuel

/-- The memoised definition step shared verbatim by
`_generate_collection_schema` and `_generate_entity_schema`: generate the
entity's definition once per local name and record it. -/
def ensureEntityDefinition (model : SAMMModel) (fuel : Nat)
    (defs : Defs) (dt : String) : Option Defs :=
  match fuel with
  | 0 => none
  | fuel + 1 =>
    let entity_name := getLocalName dt
    if dictContains defs entity_name then some defs
    else
      match dictLookup model.entities dt with
      | some entity => do
          let (defs', d) ← generateEntityDefinition model fuel defs entity
          pure (dictInsert defs' entity_name (.obj d))
      | none => some defs
termination_by structural fuel

/-- `_generate_collection_schema`. -/
def generateCollectionSchema (model : SAMMModel) (fuel : Nat)
    (defs : Defs) (char : Characteristic) : Option (Defs × SchemaDict) :=
  match fuel with
  | 0 => none
  | fuel + 1 => do
    let schema : SchemaDict := [("type", .jStr "array")]
    let (defs', schema) ←
      match char.element_characteristic with
      | some ec => do
          let (defs', items) ← generateCharacteristicSchema model fuel defs ec
          pure (defs', dictInsert schema "items" (.obj items))
      | none =>
        match char.data_type with
        | some dt =>
          if dt = "" then pure (defs, schema)
          else if isEntity model dt then do
            let defs' ← ensureEntityDefinition model fuel defs dt
            pure (defs',
              dictInsert schema "items"
                (.obj [("$ref", .jStr ("#/definitions/" ++ getLocalName dt))]))
          else
            pure (defs, dictInsert schema "items" (.obj (xsdToJsonType dt)))
        | none => pure (defs, schema)
    let schema :=
      if char.characteristic_type == "Set" || char.characteristic_type == "SortedSet" then
        dictInsert schema "uniqueItems" (.jBool true)
      else schema
    pure (defs', schema)
termination_by structural fuel

/-- `_generate_either_schema`. -/
def generateEitherSchema (model : SAMMModel) (fuel : Nat)
    (defs : Defs) (char : Characteristic) : Option (Defs × SchemaDict) :=
  match fuel with
  | 0 => none
  | fuel + 1 => do
    let props : List (String × Json) := []
    let (defs1, props) ←
      match char.left with
      | some l => do
          let (defs1, ls) ← generateCharacteristicSchema model fuel defs l
          pure (defs1, dictInsert props "left" (.obj ls))
      | none => pure (defs, props)
    let (defs2, props) ←
      match char.right with
      | some r => do
          let (defs2, rs) ← generateCharacteristicSchema model fuel defs1 r
          pure (defs2, dictInsert props "right" (.obj rs))
      | none => pure (defs1, props)
    let schema : SchemaDict :=
      [("type", .jStr "object"), ("properties", .obj props),
       ("additionalProperties", .jBool false),
       ("oneOf", .arr [.obj [("required", .arr [.jStr "left"])],
                       .obj [("required", .arr [.jStr "right"])]])]
    pure (defs2, schema)
termination_by structural fuel

/-- `_generate_entity_schema`. -/
def generateEntitySchema (model : SAMMModel) (fuel : Nat)
    (defs : Defs) (char : Characteristic) : Option (Defs × SchemaDict) :=
  match fuel with
  | 0 => none
  | fuel + 1 =>
    match char.data_type with
    | none => some (defs, [("type", .jStr "object")])
    | some dt =>
      if dt = "" || !isEntity model dt then some (defs, [("type", .jStr "object")])
      else do
        let defs' ← ensureEntityDefinition model fuel defs dt
        pure (defs',
          [("$ref", .jStr ("#/definitions/" ++ getLocalName dt))])
termination_by structural fuel

/-- `_generate_entity_definition`: `allOf` wrapping when a registered parent
exists (the rebuilt schema drops the description), the parent definition
generated first; no guard on the `extends` walk. -/
def generateEntityDefinition (model : SAMMModel) (fuel : Nat)
    (defs : Defs) (entity : Entity) : Option (Defs × SchemaDict) :=
  match fuel with
  | 0 => none
  | fuel + 1 => do
    let entity_schema : SchemaDict := [("type", .jStr "object"), ("properties", .obj [])]
    let entity_schema :=
      match entity.description with
      | some d => dictInsert entity_schema "description" (.jStr (getEnglishText d.values))
      | none => entity_schema
    match entity.extendsUrn with
    | some pUrn =>
      if pUrn = "" then do
        let (defs1, props, req) ← schemaPropsLoop model fuel defs entity.properties [] []
        pure (defs1, finishTarget entity_schema props req)
      else
        (match dictLookup model.entities pUrn with
         | some parent_entity => do
             let parent_name := getLocalName pUrn
             let defs1 ←
               if dictContains defs parent_name then pure defs
               else do
                 let (d1, pd) ← generateEntityDefinition model fuel defs parent_entity
                 pure (dictInsert d1 parent_name (.obj pd))
             let (defs2, props, req) ← schemaPropsLoop model fuel defs1 entity.properties [] []
             let target : SchemaDict :=
               finishTarget [("type", .jStr "object"), ("properties", .obj [])] props req
             pure (defs2,
               [("allOf", .arr [.obj [("$ref", .jStr ("#/definitions/" ++ parent_name))],
                                .obj target])])
         | none => do
             let (defs1, props, req) ← schemaPropsLoop model fuel defs entity.properties [] []
             pure (defs1, finishTarget entity_schema props req))
    | none => do
      let (defs1, props, req) ← schemaPropsLoop model fuel defs entity.properties [] []
      pure (defs1, finishTarget entity_schema props req)
termination_by structural fuel

/-- `_generate_property_schema`. -/
def generatePropertySchema (model : SAMMModel) (fuel : Nat)
    (defs : Defs) (prop : Property) : Option (Defs × SchemaDict) :=
  match fuel with
  | 0 => none
  | fuel + 1 => do
    let prop_schema : SchemaDict := []
    let prop_schema :=
      match prop.description with
      | some d => dictInsert prop_schema "description" (.jStr (getEnglishText d.values))
      | none => prop_schema
    let prop_schema :=
      match prop.preferred_name with
      | some pn => dictInsert prop_schema "title" (.jStr (getEnglishText pn.values))
      | none => prop_schema
    match prop.characteristic with
    | some c => do
        let (defs', cs) ← generateCharacteristicSchema model fuel defs c
        pure (defs', dictUpdate prop_schema cs)
    | none => pure (defs, prop_schema)
termination_by structural fuel

/-- The per-property loop shared verbatim by `generate` and
`_generate_entity_definition`: skip `not_in_payload`, key by
`payload_name or local name`, collect a `required` entry iff not
`optional`. -/
def schemaPropsLoop (model : SAMMModel) (fuel : Nat) (defs : Defs)
    (props : List Property) (accProps : List (String × Json))
    (accReq : List String) : Option (Defs × List (String × Json) × List String) :=
  match fuel with
  | 0 => none
  | fuel + 1 =>
    match props with
    | [] => some (defs, accProps, accReq)
    | p :: rest =>
      if p.not_in_payload then schemaPropsLoop model fuel defs rest accProps accReq
      else do
        let name := pyStrOr p.payload_name (getLocalName p.urn)
        let (defs', ps) ← generatePropertySchema model fuel defs p
        let accProps' := dictInsert accProps name (.obj ps)
        let accReq' := if p.optional then accReq else accReq ++ [name]
        schemaPropsLoop model fuel defs' rest accProps' accReq'
termination_by structural fuel

end

/-- The top-level schema dict assembly of `generate`: the fixed header keys,
the aspect description/title when present, then the `properties`,
`required` (only if non-empty) and `definitions` (only if non-empty)
assignments in source order. -/
def buildTopSchema (aspect : Aspect) (defs : Defs)
    (props : List (String × Json)) (req : List String) : Json :=
  let s0 : SchemaDict :=
    [("$schema", .jStr "http://json-schema.org/draft-07/schema#"),
     ("type", .jStr "object"), ("properties", .obj []), ("definitions", .obj [])]
  let s1 :=
    match aspect.description with
    | some d => dictInsert s0 "description" (.jStr (getEnglishText d.values))
    | none => s0
  let s2 :=
    match aspect.preferred_name with
    | some pn => dictInsert s1 "title" (.jStr (getEnglishText pn.values))
    | none => s1
  let s3 := dictInsert s2 "properties" (.obj props)
  let s4 := if req.isEmpty then s3 else dictInsert s3 "required" (.arr (req.map .jStr))
  let s5 := if defs.isEmpty then s4 else dictInsert s4 "definitions" (.obj defs)
  .obj s5

/-- `JSONSchemaGenerator.generate`. -/
def generate (model : SAMMModel) (fuel : Nat) : Except GenError Json :=
  match model.aspect with
  | none => .error .missingAspect
  | some aspect =>
    match schemaPropsLoop model fuel [] aspect.properties [] [] with
    | none => .error .fuelExhausted
    | some (defs, props, req) => .ok (buildTopSchema aspect defs props req)

end JSONSchemaGenerator

/-! ## RDF layer

The rdflib surface consumed by the parser and produced by the writer:
`value`, `objects`, `subjects`, `items`, containment, namespace bindings.
A graph is a list of triples in insertion order; `value` returns the first
match.  Literals carry their Python payload; rdflib `Literal` subclasses
`str`, so its truthiness is emptiness of the lexical form. -/

/-- RDF literal as created/consumed by this code base. -/
inductive Lit : Type where
  | plain (s : String)
  | langLit (s : String) (tag : String)
  | boolLit (b : Bool)
  | intLit (n : Int)
  | floatLit (q : ℚ)
  | decLit (s : String)
  deriving DecidableEq, Repr

/-- RDF node. -/
inductive Node : Type where
  | uri (s : String)
  | blank (id : Nat)
  | lit (l : Lit)
  deriving DecidableEq, Repr

structure Triple : Type where
  s : Node
  p : Node
  o : Node
  deriving DecidableEq, Repr

/-- An rdflib `Graph`: triples plus namespace bindings (prefix, namespace),
the default prefix as `""`. -/
structure RDFGraph : Type where
  triples : List Triple
  bindings : List (String × String)

/-- Lexical form of a literal (`str(literal)`). -/
def Lit.lexical : Lit → String
  | .plain s => s
  | .langLit s _ => s
  | .boolLit b => if b then "true" else "false"
  | .intLit n => intRepr n
  | .floatLit q => ratRepr q
  | .decLit s => s

/-- `literal.toPython()`. -/
def Lit.toPython : Lit → PyValue
  | .plain s => .vStr s
  | .langLit s _ => .vStr s
  | .boolLit b => .vBool b
  | .intLit n => .vInt n
  | .floatLit q => .vFloat q
  | .decLit s => .vDecimal s

/-- `literal.language or 'en'` (a missing or empty tag defaults to "en"). -/
def Lit.langOrEn : Lit → String
  | .langLit _ tag => if tag = "" then "en" else tag
  | _ => "en"

/-- `str(node)`. -/
def Node.str : Node → String
  | .uri s => s
  | .blank n => "_b" ++ natRepr n
  | .lit l => l.lexical

/-- Python truthiness of a node (URIRef and Literal subclass `str`; a blank
node label is never empty). -/
def Node.truthy : Node → Bool
  | .uri s => !(s == "")
  | .blank _ => true
  | .lit l => !(l.lexical == "")

/-- `graph.value(s, p)`: the first matching object. -/
def graphValue (g : List Triple) (s p : Node) : Option Node :=
  (g.find? (fun t => t.s == s && t.p == p)).map (fun t => t.o)

/-- `graph.objects(s, p)`. -/
def graphObjects (g : List Triple) (s p : Node) : List Node :=
  (g.filter (fun t => t.s == s && t.p == p)).map (fun t => t.o)

/-- `graph.subjects(p, o)`. -/
def graphSubjects (g : List Triple) (p o : Node) : List Node :=
  (g.filter (fun t => t.p == p && t.o == o)).map (fun t => t.s)

/-- `(s, p, o) in graph`. -/
def graphContains (g : List Triple) (s p o : Node) : Bool :=
  g.any (fun t => t.s == s && t.p == p && t.o == o)

def rdfNS : String := "http://www.w3.org/1999/02/22-rdf-syntax-ns#"
def rdfType : Node := .uri (rdfNS ++ "type")
def rdfFirst : Node := .uri (rdfNS ++ "first")
def rdfRest : Node := .uri (rdfNS ++ "rest")
def rdfNil : Node := .uri (rdfNS ++ "nil")
def xsdNS : String := "http://www.w3.org/2001/XMLSchema#"

/-- `graph.items(listNode)`: walk an RDF collection.  The walk is bounded by
`fuel` (callers pass the graph size plus one, enough for every well-formed
list; a graph with a cyclic `rdf:rest` chain — on which rdflib itself would
loop — is outside every claim settled here). -/
def graphItems (g : List Triple) (fuel : Nat) (node : Node) : List Node :=
  match fuel with
  | 0 => []
  | fuel + 1 =>
    if node == rdfNil then []
    else
      match graphValue g node rdfFirst with
      | none => []
      | some x =>
        match graphValue g node rdfRest with
        | none => [x]
        | some r => x :: graphItems g fuel r

/-! ## Vocabulary resolution (`parser.py`) -/

def sammNS (v : String) : String :=
  "urn:samm:org.eclipse.esmf.samm:meta-model:" ++ v ++ "#"

def sammCNS (v : String) : String :=
  "urn:samm:org.eclipse.esmf.samm:characteristic:" ++ v ++ "#"

def sammENS (v : String) : String :=
  "urn:samm:org.eclipse.esmf.samm:entity:" ++ v ++ "#"

def unitNS (v : String) : String :=
  "urn:samm:org.eclipse.esmf.samm:unit:" ++ v ++ "#"

def sammTerm (v name : String) : Node := .uri (sammNS v ++ name)
def sammCTerm (v name : String) : Node := .uri (sammCNS v ++ name)

/-- Split a character list at the first occurrence of `sep`, returning the
part before and the part after. -/
def splitFirst (sep : List Char) (xs : List Char) : Option (List Char × List Char) :=
  if sep.isPrefixOf xs then some ([], xs.drop sep.length)
  else
    match xs with
    | [] => none
    | c :: rest => (splitFirst sep rest).map (fun pr => (c :: pr.1, pr.2))
termination_by structural xs

/-- Python `sub in s`. -/
def containsSub (s sub : String) : Bool :=
  (splitFirst sub.toList s.toList).isSome

/-- Python `s.split(sep)[1]`: the segment between the first and second
occurrence of `sep` (the code only evaluates this after a containment
check, so the first occurrence exists). -/
def pySplitSecond (s sep : String) : String :=
  match splitFirst sep.toList s.toList with
  | none => ""
  | some (_, rest) =>
    match splitFirst sep.toList rest with
    | none => String.mk rest
    | some (a, _) => String.mk a

/-- Python `s.rstrip('#')`. -/
def rstripHash (s : String) : String :=
  String.mk ((s.toList.reverse.dropWhile (fun c => c = '#')).reverse)

/-- `_detect_samm_version`: first binding whose namespace contains the
meta-model marker wins; default `"2.2.0"`. -/
def detectSammVersion : List (String × String) → String
  | [] => "2.2.0"
  | (_, ns) :: rest =>
    if containsSub ns "org.eclipse.esmf.samm:meta-model:" then
      rstripHash (pySplitSecond ns ":meta-model:")
    else detectSammVersion rest

/-- The four namespace objects set at the end of `_detect_samm_version`
(meta-model, characteristic catalog, entity catalog, unit catalog), all
substituting the detected version into the fixed templates. -/
def detectNamespaces (bindings : List (String × String)) :
    String × String × String × String :=
  let v := detectSammVersion bindings
  (sammNS v, sammCNS v, sammENS v, unitNS v)

/-- `_extract_namespaces`: record every binding; the (last) default-prefix
binding becomes the model's local namespace. -/
def extractNamespaces (model : SAMMModel) (bindings : List (String × String)) :
    SAMMModel :=
  bindings.foldl
    (fun m pr =>
      let m := { m with prefixes := dictInsert m.prefixes pr.1 pr.2 }
      if pr.1 = "" then { m with namespaceUri := pr.2 } else m)
    model

/-! ## Graph-to-model builder (`parser.py`, `SAMMParser`) -/

namespace SAMMParser

/-- Mutation `prop.payload_name = v`. -/
def setPayloadName : Property → Option String → Property
  | .mk u pn d s c ev o _ nip, v => .mk u pn d s c ev o v nip

/-- Mutation `prop.optional = v`. -/
def setOptional : Property → Bool → Property
  | .mk u pn d s c ev _ pln nip, v => .mk u pn d s c ev v pln nip

/-- Mutation `prop.not_in_payload = v`. -/
def setNotInPayload : Property → Bool → Property
  | .mk u pn d s c ev o pln _, v => .mk u pn d s c ev o pln v

/-- The wrapper-override block of `_parse_property_list`: `payloadName`,
`optional`, `notInPayload` applied in order to the freshly parsed
property. -/
def applyWrapperOverrides (v : String) (g : List Triple) (item : Node)
    (prop0 : Property) : Property :=
  let prop1 :=
    match graphValue g item (sammTerm v "payloadName") with
    | some n => if n.truthy then setPayloadName prop0 (some n.str) else prop0
    | none => prop0
  let prop2 :=
    match graphValue g item (sammTerm v "optional") with
    | some n => if n.truthy then setOptional prop1 true else prop1
    | none => prop1
  match graphValue g item (sammTerm v "notInPayload") with
  | some n => if n.truthy then setNotInPayload prop2 true else prop2
  | none => prop2

/-- Language-tagged objects of a predicate folded into a dict
(`_parse_common_attributes` inner loops; non-literals skipped). -/
def parseLangDict (g : List Triple) (uri pred : Node) : List (String × String) :=
  (graphObjects g uri pred).foldl
    (fun acc o =>
      match o with
      | .lit l => dictInsert acc l.langOrEn l.lexical
      | _ => acc)
    []

/-- `_parse_common_attributes`: preferredName, description, see. -/
def parseCommon (v : String) (g : List Triple) (uri : Node) :
    Option LocalizedString × Option LocalizedString × List String :=
  let pn := parseLangDict g uri (sammTerm v "preferredName")
  let pnOpt : Option LocalizedString := if pn.isEmpty then none else some ⟨pn⟩
  let ds := parseLangDict g uri (sammTerm v "description")
  let dsOpt : Option LocalizedString := if ds.isEmpty then none else some ⟨ds⟩
  let see := (graphObjects g uri (sammTerm v "see")).map Node.str
  (pnOpt, dsOpt, see)

/-- `_literal_to_python`. -/
def literalToPython (n : Node) : PyValue :=
  match n with
  | .lit l => l.toPython
  | _ => .vStr n.str

/-- The closed kind list of `_parse_characteristic` (lines 268–273). -/
def parseKindNames : List String :=
  ["Measurement", "Quantifiable", "Enumeration", "State", "List", "Set",
   "SortedSet", "Collection", "TimeSeries", "Either", "StructuredValue",
   "SingleEntity", "Trait", "Code", "Duration", "Boolean", "Text",
   "MultiLanguageText", "Timestamp", "UnitReference"]

mutual

/-- `_parse_characteristic`.  The recursion into `elementCharacteristic`,
`left`, `right` and `elements` has no cycle guard in the source; a cyclic
reference chain recurses forever, rendered here as `none` for every
fuel. -/
def parseCharacteristic (v : String) (g : List Triple) (fuel : Nat)
    (model : SAMMModel) (char_uri : Node) :
    Option (SAMMModel × Characteristic) :=
  match fuel with
  | 0 => none
  | fuel + 1 =>
    let char_uri_str := char_uri.str
    if strStartsWith char_uri_str (sammCNS v) then
      let char_type_str := afterLastChar char_uri_str '#'
      let dt : Option String :=
        if char_type_str = "Boolean" then some (xsdNS ++ "boolean")
        else if char_type_str = "Text" then some (xsdNS ++ "string")
        else if char_type_str = "Timestamp" then some (xsdNS ++ "dateTime")
        else none
      some (model,
        Characteristic.mk char_uri_str none none [] dt char_type_str none []
          none none none none none [])
    else
      let char_types := graphObjects g char_uri rdfType
      let known := parseKindNames.map (sammCTerm v)
      let char_type_str :=
        match char_types.find? (fun t => known.contains t) with
        | some t => afterLastChar t.str '#'
        | none => "Characteristic"
      let (pn, ds, see) := parseCommon v g char_uri
      let data_type :=
        (graphValue g char_uri (sammTerm v "dataType")).bind
          (fun n => if n.truthy then some n.str else none)
      let unit :=
        (graphValue g char_uri (sammCTerm v "unit")).bind
          (fun n => if n.truthy then some n.str else none)
      let values :=
        match graphValue g char_uri (sammCTerm v "values") with
        | some n =>
          if n.truthy then (graphItems g (g.length + 1) n).map literalToPython
          else []
        | none => []
      let default_value :=
        (graphValue g char_uri (sammCTerm v "defaultValue")).bind
          (fun n => if n.truthy then some (literalToPython n) else none)
      do
      let (model, ec) ←
        match graphValue g char_uri (sammCTerm v "elementCharacteristic") with
        | some n =>
          if n.truthy then do
            let (m1, c) ← parseCharacteristic v g fuel model n
            pure (m1, some c)
          else pure (model, none)
        | none => pure (model, (none : Option Characteristic))
      let (model, leftC) ←
        match graphValue g char_uri (sammCTerm v "left") with
        | some n =>
          if n.truthy then do
            let (m1, c) ← parseCharacteristic v g fuel model n
            pure (m1, some c)
          else pure (model, none)
        | none => pure (model, (none : Option Characteristic))
      let (model, rightC) ←
        match graphValue g char_uri (sammCTerm v "right") with
        | some n =>
          if n.truthy then do
            let (m1, c) ← parseCharacteristic v g fuel model n
            pure (m1, some c)
          else pure (model, none)
        | none => pure (model, (none : Option Characteristic))
      let deconstruction_rule :=
        (graphValue g char_uri (sammCTerm v "deconstructionRule")).bind
          (fun n => if n.truthy then some n.str else none)
      let (model, elems) ←
        match graphValue g char_uri (sammCTerm v "elements") with
        | some n =>
          if n.truthy then
            parseElementsLoop v g fuel model (graphItems g (g.length + 1) n)
          else pure (model, [])
        | none => pure (model, ([] : List Property))
      pure (model,
        Characteristic.mk char_uri_str pn ds see data_type char_type_str unit
          values default_value ec leftC rightC deconstruction_rule elems)
termination_by structural fuel

/-- The `elements` loop of `_parse_characteristic` (no registry updates for
these properties beyond what `_parse_property` itself does). -/
def parseElementsLoop (v : String) (g : List Triple) (fuel : Nat)
    (model : SAMMModel) (items : List Node) :
    Option (SAMMModel × List Property) :=
  match fuel with
  | 0 => none
  | fuel + 1 =>
    match items with
    | [] => some (model, [])
    | n :: rest => do
        let (m1, p) ← parseProperty v g fuel model n
        let (m2, ps) ← parseElementsLoop v g fuel m1 rest
        pure (m2, p :: ps)
termination_by structural fuel

/-- `_parse_property`. -/
def parseProperty (v : String) (g : List Triple) (fuel : Nat)
    (model : SAMMModel) (prop_uri : Node) : Option (SAMMModel × Property) :=
  match fuel with
  | 0 => none
  | fuel + 1 => do
    let (pn, ds, see) := parseCommon v g prop_uri
    let (model, charOpt) ←
      match graphValue g prop_uri (sammTerm v "characteristic") with
      | some n =>
        if n.truthy then do
          let (m1, c) ← parseCharacteristic v g fuel model n
          pure ({ m1 with characteristics := dictInsert m1.characteristics n.str c },
                some c)
        else pure (model, none)
      | none => pure (model, (none : Option Characteristic))
    let exampleVal :=
      (graphValue g prop_uri (sammTerm v "exampleValue")).bind
        (fun n => if n.truthy then some (literalToPython n) else none)
    let opt :=
      ((graphValue g prop_uri (sammTerm v "optional")).map Node.truthy).getD false
    let payload_name :=
      (graphValue g prop_uri (sammTerm v "payloadName")).bind
        (fun n => if n.truthy then some n.str else none)
    let nip :=
      ((graphValue g prop_uri (sammTerm v "notInPayload")).map Node.truthy).getD false
    pure (model, Property.mk prop_uri.str pn ds see charOpt exampleVal opt payload_name nip)
termination_by structural fuel

/-- `_parse_property_list` over the already-walked item nodes: direct
Property references and wrapper nodes with overrides; every resulting
(possibly overridden) Property is assigned into the properties registry. -/
def parsePropertyListItems (v : String) (g : List Triple) (fuel : Nat)
    (model : SAMMModel) (items : List Node) :
    Option (SAMMModel × List Property) :=
  match fuel with
  | 0 => none
  | fuel + 1 =>
    match items with
    | [] => some (model, [])
    | item :: rest =>
      if graphContains g item rdfType (sammTerm v "Property") then do
        let (m1, prop) ← parseProperty v g fuel model item
        let m2 := { m1 with properties := dictInsert m1.properties prop.urn prop }
        let (m3, ps) ← parsePropertyListItems v g fuel m2 rest
        pure (m3, prop :: ps)
      else
        match graphValue g item (sammTerm v "property") with
        | some prop_uri =>
          if prop_uri.truthy then do
            let (m1, prop0) ← parseProperty v g fuel model prop_uri
            let prop3 := applyWrapperOverrides v g item prop0
            let m2 := { m1 with properties := dictInsert m1.properties prop3.urn prop3 }
            let (m3, ps) ← parsePropertyListItems v g fuel m2 rest
            pure (m3, prop3 :: ps)
          else parsePropertyListItems v g fuel model rest
        | none => parsePropertyListItems v g fuel model rest
termination_by structural fuel

end

/-- `_parse_operation`. -/
def parseOperation (v : String) (g : List Triple) (fuel : Nat)
    (model : SAMMModel) (op_uri : Node) : Option (SAMMModel × Operation) := do
  let (pn, ds, see) := parseCommon v g op_uri
  let (model, inputs) ←
    match graphValue g op_uri (sammTerm v "input") with
    | some n =>
      if n.truthy then
        parsePropertyListItems v g fuel model (graphItems g (g.length + 1) n)
      else pure (model, [])
    | none => pure (model, ([] : List Property))
  let (model, output) ←
    match graphValue g op_uri (sammTerm v "output") with
    | some n =>
      if n.truthy then do
        let (m1, p) ← parseProperty v g fuel model n
        pure (m1, some p)
      else pure (model, none)
    | none => pure (model, (none : Option Property))
  pure (model,
    { urn := op_uri.str, preferred_name := pn, description := ds, see := see,
      input_properties := inputs, output_property := output })

/-- `_parse_event`. -/
def parseEvent (v : String) (g : List Triple) (fuel : Nat)
    (model : SAMMModel) (event_uri : Node) : Option (SAMMModel × Event) := do
  let (pn, ds, see) := parseCommon v g event_uri
  let (model, params) ←
    match graphValue g event_uri (sammTerm v "parameters") with
    | some n =>
      if n.truthy then
        parsePropertyListItems v g fuel model (graphItems g (g.length + 1) n)
      else pure (model, [])
    | none => pure (model, ([] : List Property))
  pure (model,
    { urn := event_uri.str, preferred_name := pn, description := ds, see := see,
      parameters := params })

/-- Loop of `_parse_aspect` over the operations collection. -/
def parseOpsLoop (v : String) (g : List Triple) (fuel : Nat)
    (model : SAMMModel) : List Node → Option (SAMMModel × List Operation)
  | [] => some (model, [])
  | n :: rest => do
      let (m1, op) ← parseOperation v g fuel model n
      let m2 := { m1 with operations := dictInsert m1.operations n.str op }
      let (m3, ops) ← parseOpsLoop v g fuel m2 rest
      pure (m3, op :: ops)

/-- Loop of `_parse_aspect` over the events collection. -/
def parseEventsLoop (v : String) (g : List Triple) (fuel : Nat)
    (model : SAMMModel) : List Node → Option (SAMMModel × List Event)
  | [] => some (model, [])
  | n :: rest => do
      let (m1, ev) ← parseEvent v g fuel model n
      let m2 := { m1 with events := dictInsert m1.events n.str ev }
      let (m3, evs) ← parseEventsLoop v g fuel m2 rest
      pure (m3, ev :: evs)

/-- `_parse_aspect`. -/
def parseAspect (v : String) (g : List Triple) (fuel : Nat)
    (model : SAMMModel) (aspect_uri : Node) : Option (SAMMModel × Aspect) := do
  let (pn, ds, see) := parseCommon v g aspect_uri
  let (model, props) ←
    match graphValue g aspect_uri (sammTerm v "properties") with
    | some n =>
      if n.truthy then
        parsePropertyListItems v g fuel model (graphItems g (g.length + 1) n)
      else pure (model, [])
    | none => pure (model, ([] : List Property))
  let (model, ops) ←
    match graphValue g aspect_uri (sammTerm v "operations") with
    | some n =>
      if n.truthy then parseOpsLoop v g fuel model (graphItems g (g.length + 1) n)
      else pure (model, [])
    | none => pure (model, ([] : List Operation))
  let (model, evs) ←
    match graphValue g aspect_uri (sammTerm v "events") with
    | some n =>
      if n.truthy then parseEventsLoop v g fuel model (graphItems g (g.length + 1) n)
      else pure (model, [])
    | none => pure (model, ([] : List Event))
  pure (model,
    { urn := aspect_uri.str, preferred_name := pn, description := ds, see := see,
      properties := props, operations := ops, events := evs })

/-- `_parse_entity`. -/
def parseEntity (v : String) (g : List Triple) (fuel : Nat)
    (model : SAMMModel) (entity_uri : Node) (is_abstract : Bool) :
    Option (SAMMModel × Entity) := do
  let (pn, ds, see) := parseCommon v g entity_uri
  let (model, props) ←
    match graphValue g entity_uri (sammTerm v "properties") with
    | some n =>
      if n.truthy then
        parsePropertyListItems v g fuel model (graphItems g (g.length + 1) n)
      else pure (model, [])
    | none => pure (model, ([] : List Property))
  let ext :=
    (graphValue g entity_uri (sammTerm v "extends")).bind
      (fun n => if n.truthy then some n.str else none)
  pure (model,
    { urn := entity_uri.str, preferred_name := pn, description := ds, see := see,
      properties := props, extendsUrn := ext, is_abstract := is_abstract })

/-- The type list of `_find_all_characteristics` (lines 114–136). -/
def findKindNames : List String :=
  ["Measurement", "Quantifiable", "Enumeration", "State", "Collection", "List",
   "Set", "SortedSet", "TimeSeries", "Either", "StructuredValue", "SingleEntity",
   "Trait", "Code", "Duration", "Boolean", "Text", "MultiLanguageText",
   "Timestamp", "UnitReference"]

/-- `_find_all_characteristics`: subjects typed by a known kind, plus
characteristics referenced from typed Properties.  The source collects these
in a Python `set` (unordered); this embedding fixes first-occurrence order,
which no claim depends on (the results land in a URN-keyed registry). -/
def findAllCharacteristics (v : String) (g : List Triple) : List Node :=
  let types := sammTerm v "Characteristic" :: findKindNames.map (sammCTerm v)
  let typed := types.foldl (fun acc t => acc ++ graphSubjects g rdfType t) []
  let referenced :=
    (graphSubjects g rdfType (sammTerm v "Property")).foldl
      (fun acc p =>
        match graphValue g p (sammTerm v "characteristic") with
        | some c => if c.truthy then acc ++ [c] else acc
        | none => acc)
      []
  (typed ++ referenced).dedup

/-- Aspect pass of `_parse_model` (last typed Aspect wins). -/
def parseAspectsLoop (v : String) (g : List Triple) (fuel : Nat)
    (model : SAMMModel) : List Node → Option SAMMModel
  | [] => some model
  | n :: rest => do
      let (m1, a) ← parseAspect v g fuel model n
      parseAspectsLoop v g fuel { m1 with aspect := some a } rest

/-- Entity pass of `_parse_model`. -/
def parseEntitiesLoop (v : String) (g : List Triple) (fuel : Nat)
    (is_abstract : Bool) (model : SAMMModel) : List Node → Option SAMMModel
  | [] => some model
  | n :: rest => do
      let (m1, e) ← parseEntity v g fuel model n is_abstract
      parseEntitiesLoop v g fuel is_abstract
        { m1 with entities := dictInsert m1.entities n.str e } rest

/-- Characteristics pass of `_parse_model`. -/
def parseCharsLoop (v : String) (g : List Triple) (fuel : Nat)
    (model : SAMMModel) : List Node → Option SAMMModel
  | [] => some model
  | n :: rest =>
    if dictContains model.characteristics n.str then
      parseCharsLoop v g fuel model rest
    else do
      let (m1, c) ← parseCharacteristic v g fuel model n
      parseCharsLoop v g fuel
        { m1 with characteristics := dictInsert m1.characteristics n.str c } rest

/-- Standalone-properties pass of `_parse_model`. -/
def parseStandalonePropsLoop (v : String) (g : List Triple) (fuel : Nat)
    (model : SAMMModel) : List Node → Option SAMMModel
  | [] => some model
  | n :: rest =>
    if dictContains model.properties n.str then
      parseStandalonePropsLoop v g fuel model rest
    else do
      let (m1, p) ← parseProperty v g fuel model n
      parseStandalonePropsLoop v g fuel
        { m1 with properties := dictInsert m1.properties n.str p } rest

/-- `parse_string` minus the Turtle deserialisation (the graph is the
input): extract namespaces, detect the version, run `_parse_model`. -/
def parseGraph (g : RDFGraph) (fuel : Nat) : Option SAMMModel :=
  let model0 := extractNamespaces {} g.bindings
  let v := detectSammVersion g.bindings
  let gt := g.triples
  do
    let m1 ← parseAspectsLoop v gt fuel model0
      (graphSubjects gt rdfType (sammTerm v "Aspect"))
    let m2 ← parseEntitiesLoop v gt fuel false m1
      (graphSubjects gt rdfType (sammTerm v "Entity"))
    let m3 ← parseEntitiesLoop v gt fuel true m2
      (graphSubjects gt rdfType (sammTerm v "AbstractEntity"))
    let m4 ← parseCharsLoop v gt fuel m3 (findAllCharacteristics v gt)
    let m5 ← parseStandalonePropsLoop v gt fuel m4
      (graphSubjects gt rdfType (sammTerm v "Property"))
    pure m5

end SAMMParser

/-! ## Turtle writer (`writer.py`, `SAMMWriter`)

The writer's Turtle serialisation and its re-deserialisation are identity on
the graph (triples and namespace bindings); the RDF layer is out of scope
per the spec, so round-trip statements compose the graph builder below with
the parser directly. -/

namespace SAMMWriter

/-- Writer state: the graph under construction and a fresh-blank-node
counter (`BNode()`). -/
structure WState : Type where
  g : List Triple := []
  ctr : Nat := 0

def addT (st : WState) (s p o : Node) : WState :=
  { st with g := st.g ++ [⟨s, p, o⟩] }

def freshB (st : WState) : Node × WState :=
  (Node.blank st.ctr, { st with ctr := st.ctr + 1 })

/-- The writer is pinned to the baseline vocabulary version. -/
def wSamm (name : String) : Node := sammTerm "2.2.0" name

def wSammC (name : String) : Node := sammCTerm "2.2.0" name

/-- Python truthiness of an `Optional[str]` field. -/
def optStrTruthy (o : Option String) : Bool :=
  match o with
  | some s => !(s == "")
  | none => false

/-- `_python_to_literal`: bool, int and float keep their datatype; anything
else (str, Decimal, …) becomes a plain literal of its `str()`. -/
def pythonToLiteral : PyValue → Lit
  | .vBool b => .boolLit b
  | .vInt n => .intLit n
  | .vFloat q => .floatLit q
  | .vStr s => .plain s
  | .vDecimal s => .plain s

/-- `rdflib.collection.Collection(graph, head, items)`: the linked
`rdf:first`/`rdf:rest` chain (fresh blank nodes for the inner cells).  The
source only ever writes non-empty collections. -/
def writeListChain (st : WState) (node : Node) : List Node → WState
  | [] => st
  | [x] => addT (addT st node rdfFirst x) node rdfRest rdfNil
  | x :: y :: xs =>
      let st1 := addT st node rdfFirst x
      let (b, st2) := freshB st1
      writeListChain (addT st2 node rdfRest b) b (y :: xs)

/-- `_write_common_attributes`. -/
def writeCommon (st : WState) (uri : Node) (pn ds : Option LocalizedString)
    (see : List String) : WState :=
  let st :=
    match pn with
    | some l =>
      l.values.foldl
        (fun st kv => addT st uri (wSamm "preferredName") (.lit (.langLit kv.2 kv.1))) st
    | none => st
  let st :=
    match ds with
    | some l =>
      l.values.foldl
        (fun st kv => addT st uri (wSamm "description") (.lit (.langLit kv.2 kv.1))) st
    | none => st
  see.foldl (fun st s => addT st uri (wSamm "see") (.uri s)) st

/-- `char_type_map` of `_write_characteristic` (unknown kinds fall back to
`samm:Characteristic`). -/
def charTypeNode (characteristic_type : String) : Node :=
  if ["Measurement", "Quantifiable", "Enumeration", "State", "Collection",
      "List", "Set", "SortedSet", "TimeSeries", "Either", "StructuredValue",
      "SingleEntity", "Trait", "Code", "Duration", "Boolean", "Text",
      "MultiLanguageText", "Timestamp", "UnitReference"].contains characteristic_type
  then wSammC characteristic_type
  else wSamm "Characteristic"

/-- One conditional `graph.add` (the writer's truthiness-guarded adds). -/
def condAddT (st : WState) (cond : Bool) (s p o : Node) : WState :=
  if cond then addT st s p o else st

/-- Chain the given item nodes from a fresh blank node and link it at
`pred` (`Collection(graph, BNode(), items)` plus the link triple). -/
def chainLink (st : WState) (s pred : Node) (ns : List Node) : WState :=
  let (b, st1) := freshB st
  addT (writeListChain st1 b ns) s pred b

/-- `chainLink` uncurried over the writer loop's (state, item nodes)
result. -/
def pairChainLink (s pred : Node) (pr : WState × List Node) : WState :=
  chainLink pr.1 s pred pr.2

/-- Attach a non-empty rdf collection of the given nodes at `pred`; an
empty list writes nothing (the source guards each call with a truthiness
test). -/
def nodeListAttach (st : WState) (s pred : Node) (ns : List Node) : WState :=
  match ns with
  | [] => st
  | _ => chainLink st s pred ns

/-- The `defaultValue` block of `_write_characteristic`. -/
def dvAttach (st : WState) (s : Node) (dv : Option PyValue) : WState :=
  match dv with
  | some dval => addT st s (wSammC "defaultValue") (.lit (pythonToLiteral dval))
  | none => st

/-- The `exampleValue` block of `_write_property`. -/
def evAttach (st : WState) (s : Node) (ev : Option PyValue) : WState :=
  match ev with
  | some exv => addT st s (wSamm "exampleValue") (.lit (pythonToLiteral exv))
  | none => st

/-- The wrapper-node block of `_create_property_list`: a fresh blank node
carrying `samm:property` and the non-default flags. -/
def wrapperNode (st : WState) (p : Property) : Node × WState :=
  let (w, stw) := freshB st
  let stw := addT stw w (wSamm "property") (.uri p.urn)
  let stw :=
    if optStrTruthy p.payload_name then
      addT stw w (wSamm "payloadName") (.lit (.plain (p.payload_name.getD "")))
    else stw
  let stw :=
    if p.optional then addT stw w (wSamm "optional") (.lit (.boolLit true))
    else stw
  let stw :=
    if p.not_in_payload then
      addT stw w (wSamm "notInPayload") (.lit (.boolLit true))
    else stw
  (w, stw)

mutual

/-- The recursive write-then-link blocks of `_write_characteristic`
(`elementCharacteristic`, `left`, `right`) and `_write_property`
(`characteristic`). -/
def optCharAttach (st : WState) (s pred : Node) (oc : Option Characteristic) : WState :=
  match oc with
  | some e => addT (writeCharacteristic st e) s pred (.uri e.urn)
  | none => st
termination_by structural oc

/-- `_write_characteristic`.  The `elements` branch inlines
`_create_property_list` (write the properties collecting their item nodes,
then chain and link them). -/
def writeCharacteristic (st : WState) (c : Characteristic) : WState :=
  match c with
  | .mk urn pn ds see dt ct unitF vals dv ecF leftF rightF dr es =>
    let char_uri : Node := .uri urn
    let st := addT st char_uri rdfType (charTypeNode ct)
    let st := writeCommon st char_uri pn ds see
    let st := condAddT st (optStrTruthy dt) char_uri (wSamm "dataType")
      (.uri (dt.getD ""))
    let st := condAddT st (optStrTruthy unitF) char_uri (wSammC "unit")
      (.uri (unitF.getD ""))
    let st := nodeListAttach st char_uri (wSammC "values")
      (vals.map (fun v => .lit (pythonToLiteral v)))
    let st := dvAttach st char_uri dv
    let st := optCharAttach st char_uri (wSammC "elementCharacteristic") ecF
    let st := optCharAttach st char_uri (wSammC "left") leftF
    let st := optCharAttach st char_uri (wSammC "right") rightF
    let st := condAddT st (optStrTruthy dr) char_uri (wSammC "deconstructionRule")
      (.lit (.plain (dr.getD "")))
    if es.isEmpty then st
    else pairChainLink char_uri (wSammC "elements") (writePropsAndNodes st es)
termination_by structural c

/-- `_write_property` (flags are written only in wrapper nodes). -/
def writeProperty (st : WState) (p : Property) : WState :=
  match p with
  | .mk urn pn ds see charF ev _ _ _ =>
    let prop_uri : Node := .uri urn
    let st := addT st prop_uri rdfType (wSamm "Property")
    let st := writeCommon st prop_uri pn ds see
    let st := optCharAttach st prop_uri (wSamm "characteristic") charF
    evAttach st prop_uri ev
termination_by structural p

/-- The per-property loop of `_create_property_list`: write each property,
wrap it in a blank override node when it carries a non-default
`payload_name`, `optional` or `not_in_payload`. -/
def writePropsAndNodes (st : WState) : List Property → WState × List Node
  | [] => (st, [])
  | p :: rest =>
    let st1 := writeProperty st p
    let (node, st2) :=
      if optStrTruthy p.payload_name || p.optional || p.not_in_payload then
        wrapperNode st1 p
      else ((.uri p.urn : Node), st1)
    let (st3, nodes) := writePropsAndNodes st2 rest
    (st3, node :: nodes)
termination_by structural l => l

end

/-- The recursive write-then-link `output` block of `_write_operation`. -/
def optPropAttach (st : WState) (s pred : Node) (op : Option Property) : WState :=
  match op with
  | some p => addT (writeProperty st p) s pred (.uri p.urn)
  | none => st

/-- `_create_property_list` attached at `pred` when the list is non-empty
(the source guards each call with `if <list>:`). -/
def plistAttach (st : WState) (s pred : Node) (ps : List Property) : WState :=
  if ps.isEmpty then st
  else pairChainLink s pred (writePropsAndNodes st ps)

/-- `_create_property_list` (the steps `plistAttach` performs before the
link triple). -/
def createPropertyList (st : WState) (props : List Property) : Node × WState :=
  let (st1, nodes) := writePropsAndNodes st props
  let (b, st2) := freshB st1
  (b, writeListChain st2 b nodes)

/-- `_write_operation`. -/
def writeOperation (st : WState) (op : Operation) : WState :=
  let op_uri : Node := .uri op.urn
  let st := addT st op_uri rdfType (wSamm "Operation")
  let st := writeCommon st op_uri op.preferred_name op.description op.see
  let st := plistAttach st op_uri (wSamm "input") op.input_properties
  optPropAttach st op_uri (wSamm "output") op.output_property

/-- The operations block of `_write_aspect`: the collection of operation
URIs, then each operation. -/
def opsAttach (st : WState) (s : Node) (ops : List Operation) : WState :=
  match ops with
  | [] => st
  | _ =>
    let st1 := nodeListAttach st s (wSamm "operations")
      (ops.map (fun op => .uri op.urn))
    ops.foldl writeOperation st1

/-- `_write_event`. -/
def writeEvent (st : WState) (ev : Event) : WState :=
  let ev_uri : Node := .uri ev.urn
  let st := addT st ev_uri rdfType (wSamm "Event")
  let st := writeCommon st ev_uri ev.preferred_name ev.description ev.see
  plistAttach st ev_uri (wSamm "parameters") ev.parameters

/-- The events block of `_write_aspect`. -/
def evsAttach (st : WState) (s : Node) (evs : List Event) : WState :=
  match evs with
  | [] => st
  | _ =>
    let st1 := nodeListAttach st s (wSamm "events")
      (evs.map (fun ev => .uri ev.urn))
    evs.foldl writeEvent st1

/-- `_write_aspect`. -/
def writeAspect (st : WState) (aspect : Aspect) : WState :=
  let aspect_uri : Node := .uri aspect.urn
  let st := addT st aspect_uri rdfType (wSamm "Aspect")
  let st := writeCommon st aspect_uri aspect.preferred_name aspect.description aspect.see
  let st := plistAttach st aspect_uri (wSamm "properties") aspect.properties
  let st := opsAttach st aspect_uri aspect.operations
  evsAttach st aspect_uri aspect.events

/-- `_write_entity`. -/
def writeEntity (st : WState) (e : Entity) : WState :=
  let entity_uri : Node := .uri e.urn
  let st := addT st entity_uri rdfType
    (if e.is_abstract then wSamm "AbstractEntity" else wSamm "Entity")
  let st := writeCommon st entity_uri e.preferred_name e.description e.see
  let st := plistAttach st entity_uri (wSamm "properties") e.properties
  condAddT st (optStrTruthy e.extendsUrn) entity_uri (wSamm "extends")
    (.uri (e.extendsUrn.getD ""))

/-- `_is_part_of_aspect_or_entity`. -/
def isPartOfAspectOrEntity (model : SAMMModel) (p : Property) : Bool :=
  (match model.aspect with
   | some a => a.properties.any (fun q => q.urn == p.urn)
   | none => false)
  || model.entities.any (fun kv => kv.2.properties.any (fun q => q.urn == p.urn))

/-- `_is_operation_in_aspect`. -/
def isOperationInAspect (model : SAMMModel) (op : Operation) : Bool :=
  match model.aspect with
  | some a => a.operations.any (fun o => o.urn == op.urn)
  | none => false

/-- `_is_event_in_aspect`. -/
def isEventInAspect (model : SAMMModel) (ev : Event) : Bool :=
  match model.aspect with
  | some a => a.events.any (fun e => e.urn == ev.urn)
  | none => false

/-- `_build_graph`. -/
def buildGraph (model : SAMMModel) : WState :=
  let st : WState := {}
  let st :=
    match model.aspect with
    | some a => writeAspect st a
    | none => st
  let st := model.entities.foldl (fun st kv => writeEntity st kv.2) st
  let st := model.characteristics.foldl (fun st kv => writeCharacteristic st kv.2) st
  let st :=
    model.properties.foldl
      (fun st kv =>
        if isPartOfAspectOrEntity model kv.2 then st else writeProperty st kv.2) st
  let st :=
    model.operations.foldl
      (fun st kv =>
        if isOperationInAspect model kv.2 then st else writeOperation st kv.2) st
  model.events.foldl
    (fun st kv =>
      if isEventInAspect model kv.2 then st else writeEvent st kv.2) st

/-- `_bind_namespaces`: the five fixed prefixes, the model's custom
prefixes, then the default prefix for the local namespace. -/
def bindNamespaces (model : SAMMModel) : List (String × String) :=
  let base := [("samm", sammNS "2.2.0"), ("samm-c", sammCNS "2.2.0"),
               ("samm-e", sammENS "2.2.0"), ("unit", unitNS "2.2.0"),
               ("xsd", xsdNS)]
  let bs :=
    model.prefixes.foldl
      (fun acc pr =>
        if pr.1 ≠ "" &&
            !(["samm", "samm-c", "samm-e", "unit", "xsd"].contains pr.1) then
          dictInsert acc pr.1 pr.2
        else acc)
      base
  if model.namespaceUri ≠ "" then dictInsert bs "" model.namespaceUri else bs

/-- `write_to_string` up to the Turtle text: the graph it serialises. -/
def writeGraph (model : SAMMModel) : RDFGraph :=
  { triples := (buildGraph model).g, bindings := bindNamespaces model }

end SAMMWriter

/-! ## Round-trip layer (C1)

Equivalence over the claim's listed fields, well-formedness of a model as
the writer emits it, sizes bounding the parser's recursion depth, and the
graph-shape descriptions the writer establishes and the parser consumes. -/

namespace RoundTrip

/-! Structural equivalence on the fields the claim lists: URN, kind tag,
dataType, unit, values, defaultValue, elementCharacteristic, left/right,
deconstructionRule, elements, property flags.  `preferredName`,
`description`, `see` and `exampleValue` are not listed and not compared. -/

mutual

def charEquiv : Characteristic → Characteristic → Bool
  | .mk u _ _ _ dt ct un vs dv ec l r dr es,
    .mk u' _ _ _ dt' ct' un' vs' dv' ec' l' r' dr' es' =>
    u == u' && dt == dt' && ct == ct' && un == un' && vs == vs' && dv == dv' &&
    optCharEquiv ec ec' && optCharEquiv l l' && optCharEquiv r r' &&
    dr == dr' && propsEquiv es es'
termination_by structural c => c

def optCharEquiv : Option Characteristic → Option Characteristic → Bool
  | none, none => true
  | some a, some b => charEquiv a b
  | _, _ => false
termination_by structural o => o

def propEquiv : Property → Property → Bool
  | .mk u _ _ _ ch _ o pn nip, .mk u' _ _ _ ch' _ o' pn' nip' =>
    u == u' && optCharEquiv ch ch' && o == o' && pn == pn' && nip == nip'
termination_by structural p => p

def propsEquiv : List Property → List Property → Bool
  | [], [] => true
  | p :: ps, q :: qs => propEquiv p q && propsEquiv ps qs
  | _, _ => false
termination_by structural l => l

end

def optPropEquiv : Option Property → Option Property → Bool
  | none, none => true
  | some a, some b => propEquiv a b
  | _, _ => false

def opEquiv (o o' : Operation) : Bool :=
  o.urn == o'.urn && propsEquiv o.input_properties o'.input_properties &&
  optPropEquiv o.output_property o'.output_property

def opsEquiv : List Operation → List Operation → Bool
  | [], [] => true
  | a :: as_, b :: bs => opEquiv a b && opsEquiv as_ bs
  | _, _ => false

def evEquiv (e e' : Event) : Bool :=
  e.urn == e'.urn && propsEquiv e.parameters e'.parameters

def evsEquiv : List Event → List Event → Bool
  | [], [] => true
  | a :: as_, b :: bs => evEquiv a b && evsEquiv as_ bs
  | _, _ => false

def aspectEquiv (a a' : Aspect) : Bool :=
  a.urn == a'.urn && propsEquiv a.properties a'.properties &&
  opsEquiv a.operations a'.operations && evsEquiv a.events a'.events

def entityEquiv (e e' : Entity) : Bool :=
  e.urn == e'.urn && propsEquiv e.properties e'.properties &&
  e.extendsUrn == e'.extendsUrn && e.is_abstract == e'.is_abstract

def entsEquiv : List (String × Entity) → List (String × Entity) → Bool
  | [], [] => true
  | (k, e) :: r, (k', e') :: r' => k == k' && entityEquiv e e' && entsEquiv r r'
  | _, _ => false

/-- Model equivalence over the claim's scope: the aspect tree and the
entity registry.  The index registries (characteristics, properties,
operations, events) are the parser's lookup tables, rebuilt on parse, and
outside the claim's field list. -/
def modelEquiv (m m' : SAMMModel) : Bool :=
  (match m.aspect, m'.aspect with
   | none, none => true
   | some a, some a' => aspectEquiv a a'
   | _, _ => false) &&
  entsEquiv m.entities m'.entities

/-! Recursion-depth bounds: `parseCharacteristic` and friends consume one
fuel per constructor and one per list step, so any fuel at least these
sizes suffices. -/

mutual

def sizeC : Characteristic → Nat
  | .mk _ _ _ _ _ _ _ _ _ ec l r _ es =>
    1 + sizeOC ec + sizeOC l + sizeOC r + sizePs es
termination_by structural c => c

def sizeOC : Option Characteristic → Nat
  | none => 0
  | some c => sizeC c
termination_by structural o => o

def sizeP : Property → Nat
  | .mk _ _ _ _ ch _ _ _ _ => 1 + sizeOC ch
termination_by structural p => p

def sizePs : List Property → Nat
  | [] => 1
  | p :: r => 1 + sizeP p + sizePs r
termination_by structural l => l

end

def sizeOP : Option Property → Nat
  | none => 0
  | some p => sizeP p

def sizeOp (op : Operation) : Nat :=
  1 + sizePs op.input_properties + sizeOP op.output_property

def sizeEv (ev : Event) : Nat := 1 + sizePs ev.parameters

def sizeAspect (a : Aspect) : Nat :=
  1 + sizePs a.properties + (a.operations.map sizeOp).sum + (a.events.map sizeEv).sum

def sizeEntity (e : Entity) : Nat := 1 + sizePs e.properties

/-! All characteristics / properties reachable from (and including) an
element, in write order: exactly the elements `writeCharacteristic` /
`writeProperty` emit. -/

mutual

def charChars : Characteristic → List Characteristic
  | .mk u pn ds se dt ct un vs dv ec l r dr es =>
    .mk u pn ds se dt ct un vs dv ec l r dr es ::
      (optCharChars ec ++ optCharChars l ++ optCharChars r ++ propsChars es)
termination_by structural c => c

def optCharChars : Option Characteristic → List Characteristic
  | none => []
  | some c => charChars c
termination_by structural o => o

def propChars : Property → List Characteristic
  | .mk _ _ _ _ ch _ _ _ _ => optCharChars ch
termination_by structural p => p

def propsChars : List Property → List Characteristic
  | [] => []
  | p :: r => propChars p ++ propsChars r
termination_by structural l => l

def charProps : Characteristic → List Property
  | .mk _ _ _ _ _ _ _ _ _ ec l r _ es =>
    optCharProps ec ++ optCharProps l ++ optCharProps r ++ propsProps es
termination_by structural c => c

def optCharProps : Option Characteristic → List Property
  | none => []
  | some c => charProps c
termination_by structural o => o

def propProps : Property → List Property
  | .mk u pn ds se ch ev o pln nip =>
    .mk u pn ds se ch ev o pln nip :: optCharProps ch
termination_by structural p => p

def propsProps : List Property → List Property
  | [] => []
  | p :: r => propProps p ++ propsProps r
termination_by structural l => l

end

def optPropChars : Option Property → List Characteristic
  | none => []
  | some p => propChars p

def optPropProps : Option Property → List Property
  | none => []
  | some p => propProps p

def opChars (op : Operation) : List Characteristic :=
  propsChars op.input_properties ++ optPropChars op.output_property

def opProps (op : Operation) : List Property :=
  propsProps op.input_properties ++ optPropProps op.output_property

def evChars (ev : Event) : List Characteristic := propsChars ev.parameters

def evProps (ev : Event) : List Property := propsProps ev.parameters

def aspectChars (a : Aspect) : List Characteristic :=
  propsChars a.properties ++ (a.operations.map opChars).flatten ++
    (a.events.map evChars).flatten

def aspectProps (a : Aspect) : List Property :=
  propsProps a.properties ++ (a.operations.map opProps).flatten ++
    (a.events.map evProps).flatten

def entityChars (e : Entity) : List Characteristic := propsChars e.properties

def entityProps (e : Entity) : List Property := propsProps e.properties

/-- The registry entries the writer actually emits (it skips properties,
operations and events already covered by the aspect or an entity). -/
def writtenRegProps (m : SAMMModel) : List Property :=
  (m.properties.filter (fun kv => !(SAMMWriter.isPartOfAspectOrEntity m kv.2))).map
    (fun kv => kv.2)

def writtenRegOps (m : SAMMModel) : List Operation :=
  (m.operations.filter (fun kv => !(SAMMWriter.isOperationInAspect m kv.2))).map
    (fun kv => kv.2)

def writtenRegEvs (m : SAMMModel) : List Event :=
  (m.events.filter (fun kv => !(SAMMWriter.isEventInAspect m kv.2))).map
    (fun kv => kv.2)

/-- Every characteristic the writer emits, in write order. -/
def writtenChars (m : SAMMModel) : List Characteristic :=
  (match m.aspect with | some a => aspectChars a | none => []) ++
  (m.entities.map (fun kv => entityChars kv.2)).flatten ++
  (m.characteristics.map (fun kv => charChars kv.2)).flatten ++
  ((writtenRegProps m).map propChars).flatten ++
  ((writtenRegOps m).map opChars).flatten ++
  ((writtenRegEvs m).map evChars).flatten

/-- Every property the writer emits, in write order. -/
def writtenProps (m : SAMMModel) : List Property :=
  (match m.aspect with | some a => aspectProps a | none => []) ++
  (m.entities.map (fun kv => entityProps kv.2)).flatten ++
  (m.characteristics.map (fun kv => charProps kv.2)).flatten ++
  ((writtenRegProps m).map propProps).flatten ++
  ((writtenRegOps m).map opProps).flatten ++
  ((writtenRegEvs m).map evProps).flatten

/-! Subject URNs of the segment each writer call emits, element-first, so
that every sub-segment's URN list is a contiguous chunk of its parent's. -/

mutual

def charUrns : Characteristic → List String
  | .mk u _ _ _ _ _ _ _ _ ec l r _ es =>
    u :: (optCharUrns ec ++ optCharUrns l ++ optCharUrns r ++ propsUrns es)
termination_by structural c => c

def optCharUrns : Option Characteristic → List String
  | none => []
  | some c => charUrns c
termination_by structural o => o

def propUrns : Property → List String
  | .mk u _ _ _ ch _ _ _ _ => u :: optCharUrns ch
termination_by structural p => p

def propsUrns : List Property → List String
  | [] => []
  | p :: r => propUrns p ++ propsUrns r
termination_by structural l => l

end

def optPropUrns : Option Property → List String
  | none => []
  | some p => propUrns p

def opUrns (op : Operation) : List String :=
  op.urn :: (propsUrns op.input_properties ++ optPropUrns op.output_property)

def evUrns (ev : Event) : List String :=
  ev.urn :: propsUrns ev.parameters

def aspectUrns (a : Aspect) : List String :=
  a.urn :: (propsUrns a.properties ++ (a.operations.map opUrns).flatten ++
    (a.events.map evUrns).flatten)

def entityUrns (e : Entity) : List String :=
  e.urn :: propsUrns e.properties

/-- Every URN the writer uses as a subject, in write order; the round-trip
statement requires these pairwise distinct (each element emitted once,
under one name). -/
def writtenUrns (m : SAMMModel) : List String :=
  (match m.aspect with | some a => aspectUrns a | none => []) ++
  (m.entities.map (fun kv => entityUrns kv.2)).flatten ++
  (m.characteristics.map (fun kv => charUrns kv.2)).flatten ++
  ((writtenRegProps m).map propUrns).flatten ++
  ((writtenRegOps m).map opUrns).flatten ++
  ((writtenRegEvs m).map evUrns).flatten

/-- A URN outside the reserved vocabularies: non-empty and not inside the
rdf, samm meta-model or samm-c namespaces (subjects there collide with the
parser's predefined-characteristic shortcut or the rdf collection
machinery). -/
def urnOK (u : String) : Bool :=
  !(u == "") && !(strStartsWith u rdfNS) && !(strStartsWith u (sammNS "2.2.0")) &&
    !(strStartsWith u (sammCNS "2.2.0"))

/-- Values the writer's literal coding round-trips: everything except
`Decimal` (which `_python_to_literal` writes as a plain string). -/
def valOK : PyValue → Bool
  | .vDecimal _ => false
  | _ => true

/-- A defaultValue the parser's truthiness test keeps: not an empty
string, not a Decimal. -/
def dvOK : Option PyValue → Bool
  | none => true
  | some (.vStr s) => !(s == "")
  | some (.vDecimal _) => false
  | some _ => true

/-- Optional string fields: `Some ""` is written by the writer's truthiness
as absent and reads back as `None`, so it is excluded. -/
def ostrOK : Option String → Bool
  | none => true
  | some s => !(s == "")

def kindOK (k : String) : Bool :=
  SAMMParser.parseKindNames.contains k || k == "Characteristic"

/-- Default payload flags (no wrapper node is written). -/
def defaultFlags (p : Property) : Bool :=
  !p.optional && p.payload_name.isNone && !p.not_in_payload

def flagged (p : Property) : Bool :=
  SAMMWriter.optStrTruthy p.payload_name || p.optional || p.not_in_payload

/-! Writer-side well-formedness: the conditions under which every listed
field survives the writer's truthiness tests and the parser's closed kind
list.  `strict` marks StructuredValue `elements` lists, whose items the
parser reads with `_parse_property` directly (a wrapper node there would
not round-trip), so their flags must be default. -/

mutual

def wfChar : Characteristic → Bool
  | .mk u _ _ _ dt ct un vs dv ec l r dr es =>
    urnOK u && kindOK ct && ostrOK dt && ostrOK un && vs.all valOK &&
    dvOK dv && ostrOK dr && wfOC ec && wfOC l && wfOC r && wfProps true es
termination_by structural c => c

def wfOC : Option Characteristic → Bool
  | none => true
  | some c => wfChar c
termination_by structural o => o

def wfProp : Property → Bool
  | .mk u _ _ _ ch _ _ pn _ => urnOK u && ostrOK pn && wfOC ch
termination_by structural p => p

def wfProps (strict : Bool) : List Property → Bool
  | [] => true
  | p :: r => wfProp p && (!strict || defaultFlags p) && wfProps strict r
termination_by structural l => l

end

def wfOP : Option Property → Bool
  | none => true
  | some p => wfProp p

def wfOp (op : Operation) : Bool :=
  urnOK op.urn && wfProps false op.input_properties && wfOP op.output_property

def wfEv (ev : Event) : Bool := urnOK ev.urn && wfProps false ev.parameters

def wfAspect (a : Aspect) : Bool :=
  urnOK a.urn && wfProps false a.properties && a.operations.all wfOp &&
    a.events.all wfEv

def wfEntity (e : Entity) : Bool :=
  urnOK e.urn && wfProps false e.properties && ostrOK e.extendsUrn

/-- Well-formedness of everything the writer emits; entity registry keys
must equal their entity's URN (the parser keys the rebuilt registry by
URN). -/
def wfModel (m : SAMMModel) : Bool :=
  (match m.aspect with | some a => wfAspect a | none => true) &&
  m.entities.all (fun kv => kv.1 == kv.2.urn && wfEntity kv.2) &&
  m.characteristics.all (fun kv => wfChar kv.2) &&
  (writtenRegProps m).all wfProp &&
  (writtenRegOps m).all wfOp &&
  (writtenRegEvs m).all wfEv

/-- Fuel sufficient for every parser pass. -/
def sizeModel (m : SAMMModel) : Nat :=
  1 + (match m.aspect with | some a => sizeAspect a | none => 0) +
  (m.entities.map (fun kv => sizeEntity kv.2)).sum +
  ((writtenChars m).map sizeC).sum +
  ((writtenProps m).map sizeP).sum

/-- The subject of a triple emitted while writing a segment: one of the
segment's element URNs, or a blank node allocated in its counter range. -/
def SubjIn (t : Triple) (urns : List String) (lo hi : Nat) : Prop :=
  (∃ u ∈ urns, t.s = .uri u) ∨ (∃ i, lo ≤ i ∧ i < hi ∧ t.s = .blank i)

/-- The rest of the graph never touches a segment's subjects. -/
def CleanFor (h : List Triple) (urns : List String) (lo hi : Nat) : Prop :=
  ∀ t ∈ h, (∀ u ∈ urns, t.s ≠ .uri u) ∧ (∀ i, lo ≤ i → i < hi → t.s ≠ .blank i)

/-- An rdf collection laid out from `b`: each cell holds one item and the
chain ends in `rdf:nil` (slices are exact, so `graph.items` walks it). -/
def ChainAt (g : List Triple) : Node → List Node → Prop
  | _, [] => True
  | b, x :: xs =>
    graphObjects g b rdfFirst = [x] ∧
    (match xs with
     | [] => graphObjects g b rdfRest = [rdfNil]
     | y :: ys => ∃ i, graphObjects g b rdfRest = [.blank i] ∧
         ChainAt g (.blank i) (y :: ys))
termination_by structural _ l => l

/-! The writer-established graph shape around each element, as the parser
queries it (one slice per consulted predicate; `preferredName`,
`description`, `see`, `exampleValue` slices are not constrained — the
parser reads them but the claim does not compare those fields). -/

mutual

def DescChar : Nat → List Triple → Characteristic → Prop
  | 0, _, _ => False
  | fuel + 1, g, .mk u _ _ _ dt ct un vs dv ec l r dr es =>
    graphObjects g (.uri u) rdfType = [SAMMWriter.charTypeNode ct] ∧
    graphObjects g (.uri u) (SAMMWriter.wSamm "dataType") =
      (match dt with | some d => [.uri d] | none => []) ∧
    graphObjects g (.uri u) (SAMMWriter.wSammC "unit") =
      (match un with | some x => [.uri x] | none => []) ∧
    (match vs with
     | [] => graphObjects g (.uri u) (SAMMWriter.wSammC "values") = []
     | _ => ∃ i, graphObjects g (.uri u) (SAMMWriter.wSammC "values") = [.blank i] ∧
         ChainAt g (.blank i) (vs.map (fun x => .lit (SAMMWriter.pythonToLiteral x))) ∧
         vs.length ≤ g.length) ∧
    graphObjects g (.uri u) (SAMMWriter.wSammC "defaultValue") =
      (match dv with | some x => [.lit (SAMMWriter.pythonToLiteral x)] | none => []) ∧
    (match ec with
     | some e => graphObjects g (.uri u) (SAMMWriter.wSammC "elementCharacteristic") =
         [.uri e.urn] ∧ DescChar fuel g e
     | none => graphObjects g (.uri u) (SAMMWriter.wSammC "elementCharacteristic") = []) ∧
    (match l with
     | some e => graphObjects g (.uri u) (SAMMWriter.wSammC "left") = [.uri e.urn] ∧
         DescChar fuel g e
     | none => graphObjects g (.uri u) (SAMMWriter.wSammC "left") = []) ∧
    (match r with
     | some e => graphObjects g (.uri u) (SAMMWriter.wSammC "right") = [.uri e.urn] ∧
         DescChar fuel g e
     | none => graphObjects g (.uri u) (SAMMWriter.wSammC "right") = []) ∧
    graphObjects g (.uri u) (SAMMWriter.wSammC "deconstructionRule") =
      (match dr with | some x => [.lit (.plain x)] | none => []) ∧
    (match es with
     | [] => graphObjects g (.uri u) (SAMMWriter.wSammC "elements") = []
     | ps => ∃ i, graphObjects g (.uri u) (SAMMWriter.wSammC "elements") = [.blank i] ∧
         ChainAt g (.blank i) (ps.map (fun p => .uri p.urn)) ∧ ps.length ≤ g.length ∧
         ∀ p ∈ ps, DescProp fuel g p)

def DescProp : Nat → List Triple → Property → Prop
  | 0, _, _ => False
  | fuel + 1, g, .mk u _ _ _ ch _ _ _ _ =>
    graphObjects g (.uri u) rdfType = [SAMMWriter.wSamm "Property"] ∧
    (match ch with
     | some c => graphObjects g (.uri u) (SAMMWriter.wSamm "characteristic") =
         [.uri c.urn] ∧ DescChar fuel g c
     | none => graphObjects g (.uri u) (SAMMWriter.wSamm "characteristic") = []) ∧
    graphObjects g (.uri u) (SAMMWriter.wSamm "optional") = [] ∧
    graphObjects g (.uri u) (SAMMWriter.wSamm "payloadName") = [] ∧
    graphObjects g (.uri u) (SAMMWriter.wSamm "notInPayload") = []

end

/-- Elementwise `DescProp` over a property list. -/
def DescProps (fuel : Nat) (g : List Triple) (ps : List Property) : Prop :=
  ∀ p ∈ ps, DescProp fuel g p

/-- The wrapper blank node written for a flagged property in a property
list. -/
def WrapperAt (g : List Triple) (w : Node) (p : Property) : Prop :=
  graphObjects g w rdfType = [] ∧
  graphObjects g w (SAMMWriter.wSamm "property") = [.uri p.urn] ∧
  graphObjects g w (SAMMWriter.wSamm "payloadName") =
    (if SAMMWriter.optStrTruthy p.payload_name then
       [.lit (.plain (p.payload_name.getD ""))] else []) ∧
  graphObjects g w (SAMMWriter.wSamm "optional") =
    (if p.optional then [.lit (.boolLit true)] else []) ∧
  graphObjects g w (SAMMWriter.wSamm "notInPayload") =
    (if p.not_in_payload then [.lit (.boolLit true)] else [])

/-- Item nodes of a written property list: a plain URI for unflagged
properties, a wrapper blank node otherwise. -/
def ItemsAt (fuel : Nat) (g : List Triple) : List Property → List Node → Prop
  | [], [] => True
  | p :: ps, n :: ns =>
    (if flagged p then (∃ i, n = .blank i) ∧ WrapperAt g n p
     else n = .uri p.urn) ∧
    DescProp fuel g p ∧ ItemsAt fuel g ps ns
  | _, _ => False

/-- A property list attached at `pred` (absent iff the list is empty). -/
def PListAt (fuel : Nat) (g : List Triple) (s pred : Node) (ps : List Property) :
    Prop :=
  match ps with
  | [] => graphObjects g s pred = []
  | _ => ∃ i ns, graphObjects g s pred = [.blank i] ∧
      ChainAt g (.blank i) ns ∧ ns.length ≤ g.length ∧ ItemsAt fuel g ps ns

def DescOp (fuel : Nat) (g : List Triple) (op : Operation) : Prop :=
  PListAt fuel g (.uri op.urn) (SAMMWriter.wSamm "input") op.input_properties ∧
  (match op.output_property with
   | some p => graphObjects g (.uri op.urn) (SAMMWriter.wSamm "output") =
       [.uri p.urn] ∧ DescProp fuel g p
   | none => graphObjects g (.uri op.urn) (SAMMWriter.wSamm "output") = [])

def DescEv (fuel : Nat) (g : List Triple) (ev : Event) : Prop :=
  PListAt fuel g (.uri ev.urn) (SAMMWriter.wSamm "parameters") ev.parameters

def OpsAt (fuel : Nat) (g : List Triple) : List Operation → Prop
  | [] => True
  | op :: r => DescOp fuel g op ∧ OpsAt fuel g r

def EvsAt (fuel : Nat) (g : List Triple) : List Event → Prop
  | [] => True
  | ev :: r => DescEv fuel g ev ∧ EvsAt fuel g r

def DescAspect (fuel : Nat) (g : List Triple) (a : Aspect) : Prop :=
  PListAt fuel g (.uri a.urn) (SAMMWriter.wSamm "properties") a.properties ∧
  (match a.operations with
   | [] => graphObjects g (.uri a.urn) (SAMMWriter.wSamm "operations") = []
   | ops => ∃ i, graphObjects g (.uri a.urn) (SAMMWriter.wSamm "operations") =
       [.blank i] ∧
       ChainAt g (.blank i) (ops.map (fun op => .uri op.urn)) ∧
       ops.length ≤ g.length ∧ OpsAt fuel g ops) ∧
  (match a.events with
   | [] => graphObjects g (.uri a.urn) (SAMMWriter.wSamm "events") = []
   | evs => ∃ i, graphObjects g (.uri a.urn) (SAMMWriter.wSamm "events") =
       [.blank i] ∧
       ChainAt g (.blank i) (evs.map (fun ev => .uri ev.urn)) ∧
       evs.length ≤ g.length ∧ EvsAt fuel g evs)

def DescEntity (fuel : Nat) (g : List Triple) (e : Entity) : Prop :=
  PListAt fuel g (.uri e.urn) (SAMMWriter.wSamm "properties") e.properties ∧
  graphObjects g (.uri e.urn) (SAMMWriter.wSamm "extends") =
    (match e.extendsUrn with | some x => [.uri x] | none => [])

/-- Membership characterisation of the `rdf:type` triples inside a
characteristic/property segment. -/
def TypeEntryCP (t : Triple) (cs : List Characteristic) (ps : List Property) : Prop :=
  (∃ c ∈ cs, t.s = .uri c.urn ∧ t.o = SAMMWriter.charTypeNode c.characteristic_type) ∨
  (∃ p ∈ ps, t.s = .uri p.urn ∧ t.o = SAMMWriter.wSamm "Property")

/-- Membership characterisation of every `rdf:type` triple the writer
emits for a whole model. -/
def TypeEntryM (m : SAMMModel) (t : Triple) : Prop :=
  (∃ a, m.aspect = some a ∧ t.s = .uri a.urn ∧ t.o = SAMMWriter.wSamm "Aspect") ∨
  (∃ kv ∈ m.entities, t.s = .uri kv.2.urn ∧
     t.o = (if kv.2.is_abstract then SAMMWriter.wSamm "AbstractEntity"
            else SAMMWriter.wSamm "Entity")) ∨
  (∃ op ∈ (match m.aspect with
            | some a => a.operations
            | none => []) ++ writtenRegOps m,
     t.s = .uri op.urn ∧ t.o = SAMMWriter.wSamm "Operation") ∨
  (∃ ev ∈ (match m.aspect with
            | some a => a.events
            | none => []) ++ writtenRegEvs m,
     t.s = .uri ev.urn ∧ t.o = SAMMWriter.wSamm "Event") ∨
  TypeEntryCP t (writtenChars m) (writtenProps m)

end RoundTrip

end SammEditor

namespace SammEditor

/-! ## Theorems -/

set_option maxRecDepth 100000
set_option maxHeartbeats 2000000

/-- C6: both generators fail with the missing-aspect error exactly when the
model's aspect is absent: with no Aspect they return it (and no artifact);
with an Aspect they never return it. -/
theorem generators_missingAspect_iff (model : SAMMModel) (fuel : Nat) :
    (model.aspect = none →
      JSONInstanceGenerator.generate model fuel = .error .missingAspect ∧
      JSONSchemaGenerator.generate model fuel = .error .missingAspect) ∧
    (model.aspect ≠ none →
      JSONInstanceGenerator.generate model fuel ≠ .error .missingAspect ∧
      JSONSchemaGenerator.generate model fuel ≠ .error .missingAspect) := by
  constructor
  · intro h
    constructor
    · simp [JSONInstanceGenerator.generate, h]
    · simp [JSONSchemaGenerator.generate, h]
  · intro h
    obtain ⟨a, ha⟩ := Option.ne_none_iff_exists'.mp h
    constructor
    · simp only [JSONInstanceGenerator.generate, ha]
      cases hg : JSONInstanceGenerator.genPropFields model fuel a.properties [] <;> simp
    · simp only [JSONSchemaGenerator.generate, ha]
      cases hg : JSONSchemaGenerator.schemaPropsLoop model fuel [] a.properties [] [] with
      | none => simp
      | some r =>
        obtain ⟨defs, props, req⟩ := r
        simp

/-- Model with a bare aspect, used to instantiate C6. -/
def aspectOnlyModel : SAMMModel := { aspect := some { urn := "urn:x#A" } }

/-- Witness for C6 at concrete inputs. -/
theorem generators_missingAspect_iff_witness :
    JSONInstanceGenerator.generate {} 3 = .error .missingAspect ∧
    JSONSchemaGenerator.generate {} 3 = .error .missingAspect ∧
    JSONInstanceGenerator.generate aspectOnlyModel 3 ≠ .error .missingAspect ∧
    JSONSchemaGenerator.generate aspectOnlyModel 3 ≠ .error .missingAspect := by
  refine ⟨((generators_missingAspect_iff {} 3).1 rfl).1,
          ((generators_missingAspect_iff {} 3).1 rfl).2,
          ((generators_missingAspect_iff aspectOnlyModel 3).2 (by simp [aspectOnlyModel])).1,
          ((generators_missingAspect_iff aspectOnlyModel 3).2 (by simp [aspectOnlyModel])).2⟩

/-- C7: for an Either characteristic the instance generator emits
`{right: <recurse>}` when a right branch exists, else `{left: <recurse>}`,
else the literal `{"right": "value"}` — in particular a one-key object in
every case. -/
theorem either_instance_dispatch (model : SAMMModel) (fuel : Nat)
    (char : Characteristic) (h : char.characteristic_type = "Either") :
    (∀ r, char.right = some r →
      JSONInstanceGenerator.generateCharacteristicValue model (fuel + 2) char
        = (JSONInstanceGenerator.generateCharacteristicValue model fuel r).map
            (fun v => .obj [("right", v)])) ∧
    (char.right = none → ∀ l, char.left = some l →
      JSONInstanceGenerator.generateCharacteristicValue model (fuel + 2) char
        = (JSONInstanceGenerator.generateCharacteristicValue model fuel l).map
            (fun v => .obj [("left", v)])) ∧
    (char.right = none → char.left = none →
      JSONInstanceGenerator.generateCharacteristicValue model (fuel + 2) char
        = some (.obj [("right", .jStr "value")])) := by
  have hstep :
      JSONInstanceGenerator.generateCharacteristicValue model (fuel + 2) char
        = JSONInstanceGenerator.generateEitherValue model (fuel + 1) char := by
    simp [JSONInstanceGenerator.generateCharacteristicValue, h]
  refine ⟨?_, ?_, ?_⟩
  · intro r hr
    rw [hstep]
    simp only [JSONInstanceGenerator.generateEitherValue, hr]
    cases JSONInstanceGenerator.generateCharacteristicValue model fuel r <;> rfl
  · intro hr l hl
    rw [hstep]
    simp only [JSONInstanceGenerator.generateEitherValue, hr, hl]
    cases JSONInstanceGenerator.generateCharacteristicValue model fuel l <;> rfl
  · intro hr hl
    rw [hstep]
    simp only [JSONInstanceGenerator.generateEitherValue, hr, hl]

/-- Either characteristic with only `right` populated (a Text scalar). -/
def eitherRightOnlyChar : Characteristic :=
  .mk "u:E" none none [] none "Either" none [] none none none
    (some (.mk "u:R" none none [] (some "string") "Text" none []
      none none none none none []))
    none []

/-- Witness for C7: only `right` populated yields exactly
`{"right": "example string"}`. -/
theorem either_instance_dispatch_witness :
    JSONInstanceGenerator.generateCharacteristicValue {} (1 + 2) eitherRightOnlyChar
      = some (.obj [("right", .jStr "example string")]) := by
  have h := (either_instance_dispatch {} 1 eitherRightOnlyChar rfl).1
    (.mk "u:R" none none [] (some "string") "Text" none []
      none none none none none []) rfl
  rw [h]
  rfl

/-- Collection characteristic over `xsd:string`, no element characteristic. -/
def strCollectionChar : Characteristic :=
  .mk "u:SC" none none [] (some "string") "Collection" none []
    none none none none none []

/-- C8 counterexample: for a Collection over `xsd:string` the two array
elements both come from the scalar default table at indices 0 and 1 and yet
coincide — consecutive elements do not differ as the claim states. -/
theorem collection_default_elements_coincide :
    JSONInstanceGenerator.generateCharacteristicValue {} 3 strCollectionChar
      = some (.arr [.jStr "example string", .jStr "example string"]) ∧
    JSONInstanceGenerator.defaultValueForType "string" 0
      = JSONInstanceGenerator.defaultValueForType "string" 1 := by
  refine ⟨rfl, ?_⟩
  have h0 : JSONInstanceGenerator.defaultValueForType "string" 0
      = .jStr "example string" := rfl
  have h1 : JSONInstanceGenerator.defaultValueForType "string" 1
      = .jStr "example string" := rfl
  rw [h0, h1]

/-- C8 (amended): every Collection-family characteristic yields an array of
length exactly 2; elements come from the elementCharacteristic when present
(both from the same recursion), else from the scalar default table at
indices 0 and 1 for a non-entity data type; the numeric table rows vary by
index (integer: 42, 43) but non-numeric rows repeat. -/
theorem collection_instance_two_elements (model : SAMMModel) (fuel : Nat)
    (char : Characteristic)
    (h : char.characteristic_type = "Collection" ∨ char.characteristic_type = "List"
       ∨ char.characteristic_type = "Set" ∨ char.characteristic_type = "SortedSet"
       ∨ char.characteristic_type = "TimeSeries") :
    (∀ js, JSONInstanceGenerator.generateCharacteristicValue model (fuel + 3) char
        = some js → ∃ x y, js = .arr [x, y]) ∧
    (∀ ec, char.element_characteristic = some ec →
      JSONInstanceGenerator.generateCharacteristicValue model (fuel + 3) char
        = (JSONInstanceGenerator.generateCharacteristicValue model fuel ec).bind
            (fun x => (JSONInstanceGenerator.generateCharacteristicValue model fuel ec).map
              (fun y => .arr [x, y]))) ∧
    (∀ dt, char.element_characteristic = none → char.data_type = some dt → dt ≠ "" →
      isEntity model dt = false →
      JSONInstanceGenerator.generateCharacteristicValue model (fuel + 3) char
        = some (.arr [JSONInstanceGenerator.defaultValueForType dt 0,
                      JSONInstanceGenerator.defaultValueForType dt 1])) ∧
    JSONInstanceGenerator.defaultValueForType "integer" 0 = .jInt 42 ∧
    JSONInstanceGenerator.defaultValueForType "integer" 1 = .jInt 43 := by
  have hstep :
      JSONInstanceGenerator.generateCharacteristicValue model (fuel + 3) char
        = JSONInstanceGenerator.generateCollectionValue model (fuel + 2) char := by
    rcases h with h | h | h | h | h <;>
      simp [JSONInstanceGenerator.generateCharacteristicValue, h]
  refine ⟨?_, ?_, ?_, rfl, rfl⟩
  · intro js hjs
    rw [hstep] at hjs
    simp only [JSONInstanceGenerator.generateCollectionValue] at hjs
    cases h0 : JSONInstanceGenerator.generateCollectionItem model (fuel + 1) char 0 with
    | none => rw [h0] at hjs; simp at hjs
    | some x =>
      cases h1 : JSONInstanceGenerator.generateCollectionItem model (fuel + 1) char 1 with
      | none => rw [h0, h1] at hjs; simp at hjs
      | some y =>
        rw [h0, h1] at hjs
        simp at hjs
        exact ⟨x, y, hjs.symm⟩
  · intro ec hec
    rw [hstep]
    simp only [JSONInstanceGenerator.generateCollectionValue,
      JSONInstanceGenerator.generateCollectionItem, hec]
    cases JSONInstanceGenerator.generateCharacteristicValue model fuel ec <;> rfl
  · intro dt hec hdt hne hent
    rw [hstep]
    simp only [JSONInstanceGenerator.generateCollectionValue,
      JSONInstanceGenerator.generateCollectionItem, hec, hdt, hne, hent]
    simp [hne, hent]

/-- Witness for C8 (amended) at the string Collection and an integer
Collection. -/
theorem collection_instance_two_elements_witness :
    JSONInstanceGenerator.generateCharacteristicValue {} (0 + 3) strCollectionChar
      = some (.arr [JSONInstanceGenerator.defaultValueForType "string" 0,
                    JSONInstanceGenerator.defaultValueForType "string" 1]) ∧
    JSONInstanceGenerator.defaultValueForType "integer" 0 = .jInt 42 := by
  have h := collection_instance_two_elements {} 0 strCollectionChar (Or.inl rfl)
  exact ⟨h.2.2.1 "string" rfl rfl (by simp) rfl, h.2.2.2.1⟩



/-! ### C2: no cycle guard -/

/-- A characteristic whose `elementCharacteristic` is itself. -/
def c2CycleGraph : List Triple :=
  [⟨.uri "u:C", rdfType, sammCTerm "2.2.0" "List"⟩,
   ⟨.uri "u:C", sammCTerm "2.2.0" "elementCharacteristic", .uri "u:C"⟩]

/-- An entity extending itself. -/
def c2Entity : Entity := { urn := "u:E", extendsUrn := some "u:E" }

def c2Model : SAMMModel := { entities := [("u:E", c2Entity)] }

/-- C2: the resolution operations have no cycle guard: on a characteristic
whose nesting revisits its own URN, and on an entity extending itself, they
recurse unboundedly (`none` for every fuel) instead of raising a cycle
error. -/
theorem cyclic_resolution_diverges :
    (∀ fuel model,
      SAMMParser.parseCharacteristic "2.2.0" c2CycleGraph fuel model (.uri "u:C") = none) ∧
    (∀ fuel,
      JSONInstanceGenerator.generateEntityInstance c2Model fuel c2Entity = none) := by
  constructor
  · intro fuel
    induction fuel with
    | zero => intro model; rfl
    | succ n ih =>
      intro model
      have hpre : strStartsWith "u:C" (sammCNS "2.2.0") = false := rfl
      have hec : graphValue c2CycleGraph (.uri "u:C")
          (sammCTerm "2.2.0" "elementCharacteristic") = some (.uri "u:C") := rfl
      simp only [SAMMParser.parseCharacteristic, hpre, hec, Bool.false_eq_true,
        if_false, Node.truthy, ih, Option.bind]
      rfl
  · intro fuel
    induction fuel with
    | zero => rfl
    | succ n ih =>
      have h1 : JSONInstanceGenerator.generateEntityInstance c2Model (n + 1) c2Entity
          = (JSONInstanceGenerator.generateEntityInstance c2Model n c2Entity).bind
              (fun start =>
                JSONInstanceGenerator.genPropFields c2Model n c2Entity.properties start) := rfl
      rw [h1, ih]
      rfl

/-! ### C3: wrapper overrides land in the registry -/

def c3Graph : RDFGraph :=
  { triples :=
      [⟨.uri "u:A", rdfType, sammTerm "2.2.0" "Aspect"⟩,
       ⟨.uri "u:A", sammTerm "2.2.0" "properties", .blank 0⟩,
       ⟨.blank 0, rdfFirst, .blank 1⟩,
       ⟨.blank 0, rdfRest, rdfNil⟩,
       ⟨.blank 1, sammTerm "2.2.0" "property", .uri "u:P"⟩,
       ⟨.blank 1, sammTerm "2.2.0" "optional", .lit (.boolLit true)⟩,
       ⟨.uri "u:P", rdfType, sammTerm "2.2.0" "Property"⟩],
    bindings := [] }

/-- The overridden copy held by the aspect (and, against the spec, by the
registry). -/
def c3Prop : Property := .mk "u:P" none none [] none none true none false

/-- The canonical, un-overridden parse of `u:P`. -/
def c3PropCanonical : Property := .mk "u:P" none none [] none none false none false

def c3Parsed : SAMMModel :=
  { aspect := some { urn := "u:A", properties := [c3Prop] },
    properties := [("u:P", c3Prop)] }

/-- C3: parsing a list whose wrapper node overrides `optional` applies the
override to a freshly parsed copy, but the properties registry entry for the
URN is that same overridden copy — not the canonical un-overridden Property
(which parses with `optional = false`). -/
theorem override_lands_in_registry :
    SAMMParser.parseGraph c3Graph 9 = some c3Parsed ∧
    dictLookup c3Parsed.properties "u:P" = some c3Prop ∧
    c3Prop.optional = true ∧
    SAMMParser.parseProperty "2.2.0" c3Graph.triples 9 {} (.uri "u:P")
      = some ({}, c3PropCanonical) ∧
    c3PropCanonical.optional = false :=
  ⟨rfl, rfl, rfl, rfl, rfl⟩
/-! ### C10: flag parsing is presence-based -/

theorem setPayloadName_optional (p : Property) (o : Option String) :
    (SAMMParser.setPayloadName p o).optional = p.optional := by
  cases p; rfl

theorem setOptional_optional (p : Property) (b : Bool) :
    (SAMMParser.setOptional p b).optional = b := by
  cases p; rfl

theorem setNotInPayload_optional (p : Property) (b : Bool) :
    (SAMMParser.setNotInPayload p b).optional = p.optional := by
  cases p; rfl

theorem setPayloadName_nip (p : Property) (o : Option String) :
    (SAMMParser.setPayloadName p o).not_in_payload = p.not_in_payload := by
  cases p; rfl

theorem setOptional_nip (p : Property) (b : Bool) :
    (SAMMParser.setOptional p b).not_in_payload = p.not_in_payload := by
  cases p; rfl

theorem setNotInPayload_nip (p : Property) (b : Bool) :
    (SAMMParser.setNotInPayload p b).not_in_payload = b := by
  cases p; rfl

/-- `_parse_property` sets each flag exactly to the truthiness of the
statement's object (absent means `False`). -/
theorem parseProperty_flags (v : String) (g : List Triple) (fuel : Nat)
    (model m' : SAMMModel) (prop_uri : Node) (p : Property)
    (h : SAMMParser.parseProperty v g (fuel + 1) model prop_uri = some (m', p)) :
    p.optional
      = ((graphValue g prop_uri (sammTerm v "optional")).map Node.truthy).getD false ∧
    p.not_in_payload
      = ((graphValue g prop_uri (sammTerm v "notInPayload")).map Node.truthy).getD false := by
  simp only [SAMMParser.parseProperty] at h
  rcases hc : graphValue g prop_uri (sammTerm v "characteristic") with _ | n <;>
    simp only [hc] at h
  · simp only [bind, Option.bind, pure, Option.some.injEq, Prod.mk.injEq] at h
    obtain ⟨-, hp⟩ := h
    subst hp
    exact ⟨rfl, rfl⟩
  · cases htr : n.truthy <;> simp only [htr, Bool.false_eq_true, if_false, if_true] at h
    · simp only [bind, Option.bind, pure, Option.some.injEq, Prod.mk.injEq] at h
      obtain ⟨-, hp⟩ := h
      subst hp
      exact ⟨rfl, rfl⟩
    · rcases hpc : SAMMParser.parseCharacteristic v g fuel model n with _ | pr <;>
        simp only [hpc] at h
      · simp [bind, Option.bind] at h
      · obtain ⟨m1, c⟩ := pr
        simp only [bind, Option.bind, pure, Option.some.injEq, Prod.mk.injEq] at h
        obtain ⟨-, hp⟩ := h
        subst hp
        exact ⟨rfl, rfl⟩

/-- Field effect of the wrapper-override block: a truthy `optional`
statement forces `optional = true`; a truthy `notInPayload` statement
forces `not_in_payload = true`. -/
theorem applyWrapperOverrides_flags (v : String) (g : List Triple)
    (item : Node) (prop0 : Property) :
    (∀ l : Lit, graphValue g item (sammTerm v "optional") = some (.lit l) →
      l.lexical ≠ "" → (SAMMParser.applyWrapperOverrides v g item prop0).optional = true) ∧
    (∀ l : Lit, graphValue g item (sammTerm v "notInPayload") = some (.lit l) →
      l.lexical ≠ "" →
      (SAMMParser.applyWrapperOverrides v g item prop0).not_in_payload = true) := by
  have htrl : ∀ l : Lit, l.lexical ≠ "" → Node.truthy (.lit l) = true := by
    intro l hl
    simp [Node.truthy, hl]
  constructor
  · intro l hv hl
    simp only [SAMMParser.applyWrapperOverrides, hv, htrl l hl, if_true]
    cases hn : graphValue g item (sammTerm v "notInPayload") with
    | none => simp [setOptional_optional]
    | some n =>
      cases htn : n.truthy <;>
        simp [htn, setNotInPayload_optional, setOptional_optional]
  · intro l hv hl
    simp only [SAMMParser.applyWrapperOverrides, hv, htrl l hl, if_true]
    simp [setNotInPayload_nip]

/-- The wrapper branch of `_parse_property_list` yields a head property that
is the freshly parsed property with the wrapper overrides applied. -/
theorem parseListItems_head_is_override (v : String) (g : List Triple) (fuel : Nat)
    (model m' : SAMMModel) (item : Node) (rest : List Node) (p : Property)
    (ps : List Property) (pu : Node)
    (h : SAMMParser.parsePropertyListItems v g (fuel + 1) model (item :: rest)
        = some (m', p :: ps))
    (hnt : graphContains g item rdfType (sammTerm v "Property") = false)
    (hpu : graphValue g item (sammTerm v "property") = some pu)
    (htru : pu.truthy = true) :
    ∃ m1 prop0, SAMMParser.parseProperty v g fuel model pu = some (m1, prop0) ∧
      p = SAMMParser.applyWrapperOverrides v g item prop0 := by
  simp only [SAMMParser.parsePropertyListItems, hnt, Bool.false_eq_true, if_false,
    hpu, htru, if_true] at h
  rcases hpp : SAMMParser.parseProperty v g fuel model pu with _ | pr <;>
    simp only [hpp] at h
  · simp [bind, Option.bind] at h
  · obtain ⟨m1, prop0⟩ := pr
    refine ⟨m1, prop0, rfl, ?_⟩
    simp only [bind, Option.bind] at h
    rcases hrec : SAMMParser.parsePropertyListItems v g fuel _ rest with _ | rr <;>
      rw [hrec] at h
    · simp at h
    · obtain ⟨m3, tail⟩ := rr
      simp only [pure, Option.some.injEq, Prod.mk.injEq, List.cons.injEq] at h
      exact h.2.1.symm

/-- C10: a `samm:optional` / `samm:notInPayload` statement whose object is
any literal with a non-empty lexical form sets the parsed flag to `true` —
presence, not boolean value, decides (a `"false"^^xsd:boolean` literal also
sets it); this holds both on the property subject itself and on a wrapper
node carrying a truthy property reference in a property list. -/
theorem nonempty_literal_sets_flags (v : String) (g : List Triple) (fuel : Nat) :
    (∀ model m' prop_uri p l,
      SAMMParser.parseProperty v g (fuel + 1) model prop_uri = some (m', p) →
      graphValue g prop_uri (sammTerm v "optional") = some (.lit l) →
      l.lexical ≠ "" → p.optional = true) ∧
    (∀ model m' prop_uri p l,
      SAMMParser.parseProperty v g (fuel + 1) model prop_uri = some (m', p) →
      graphValue g prop_uri (sammTerm v "notInPayload") = some (.lit l) →
      l.lexical ≠ "" → p.not_in_payload = true) ∧
    (∀ model m' item rest ps p pu l,
      SAMMParser.parsePropertyListItems v g (fuel + 1) model (item :: rest)
        = some (m', p :: ps) →
      graphContains g item rdfType (sammTerm v "Property") = false →
      graphValue g item (sammTerm v "property") = some pu →
      pu.truthy = true →
      graphValue g item (sammTerm v "optional") = some (.lit l) →
      l.lexical ≠ "" → p.optional = true) ∧
    (∀ model m' item rest ps p pu l,
      SAMMParser.parsePropertyListItems v g (fuel + 1) model (item :: rest)
        = some (m', p :: ps) →
      graphContains g item rdfType (sammTerm v "Property") = false →
      graphValue g item (sammTerm v "property") = some pu →
      pu.truthy = true →
      graphValue g item (sammTerm v "notInPayload") = some (.lit l) →
      l.lexical ≠ "" → p.not_in_payload = true) := by
  have htrl : ∀ l : Lit, l.lexical ≠ "" → Node.truthy (.lit l) = true := by
    intro l hl
    simp [Node.truthy, hl]
  refine ⟨?_, ?_, ?_, ?_⟩
  · intro model m' prop_uri p l h hv hl
    rw [(parseProperty_flags v g fuel model m' prop_uri p h).1, hv]
    simp [htrl l hl]
  · intro model m' prop_uri p l h hv hl
    rw [(parseProperty_flags v g fuel model m' prop_uri p h).2, hv]
    simp [htrl l hl]
  · intro model m' item rest ps p pu l h hnt hpu htru hv hl
    obtain ⟨m1, prop0, -, hp⟩ :=
      parseListItems_head_is_override v g fuel model m' item rest p ps pu h hnt hpu htru
    rw [hp]
    exact (applyWrapperOverrides_flags v g item prop0).1 l hv hl
  · intro model m' item rest ps p pu l h hnt hpu htru hv hl
    obtain ⟨m1, prop0, -, hp⟩ :=
      parseListItems_head_is_override v g fuel model m' item rest p ps pu h hnt hpu htru
    rw [hp]
    exact (applyWrapperOverrides_flags v g item prop0).2 l hv hl

def c10Graph : List Triple :=
  [⟨.uri "u:P", rdfType, sammTerm "2.2.0" "Property"⟩,
   ⟨.uri "u:P", sammTerm "2.2.0" "optional", .lit (.boolLit false)⟩,
   ⟨.uri "u:P", sammTerm "2.2.0" "notInPayload", .lit (.plain "false")⟩,
   ⟨.blank 0, sammTerm "2.2.0" "property", .uri "u:Q"⟩,
   ⟨.blank 0, sammTerm "2.2.0" "optional", .lit (.boolLit false)⟩,
   ⟨.uri "u:Q", rdfType, sammTerm "2.2.0" "Property"⟩]

def c10Parsed : Property := .mk "u:P" none none [] none none true none true

def c10Wrapped : Property := .mk "u:Q" none none [] none none true none false

def c10M2 : SAMMModel := { properties := [("u:Q", c10Wrapped)] }

/-- Witness for C10: literals whose boolean value is `false` (typed
`"false"^^xsd:boolean` and plain `"false"`) still set the flags, directly
and through a wrapper node. -/
theorem nonempty_literal_sets_flags_witness :
    (SAMMParser.parseProperty "2.2.0" c10Graph (4 + 1) {} (.uri "u:P")
        = some ({}, c10Parsed)
      ∧ c10Parsed.optional = true ∧ c10Parsed.not_in_payload = true) ∧
    (SAMMParser.parsePropertyListItems "2.2.0" c10Graph (4 + 1) {} [.blank 0]
        = some (c10M2, [c10Wrapped])
      ∧ c10Wrapped.optional = true) := by
  have h := nonempty_literal_sets_flags "2.2.0" c10Graph 4
  refine ⟨⟨rfl, ?_, ?_⟩, rfl, ?_⟩
  · exact h.1 {} {} (.uri "u:P") c10Parsed (.boolLit false) rfl rfl (by decide)
  · exact h.2.1 {} {} (.uri "u:P") c10Parsed (.plain "false") rfl rfl (by decide)
  · exact h.2.2.1 {} c10M2 (.blank 0) [] [] c10Wrapped (.uri "u:Q") (.boolLit false)
      rfl rfl rfl rfl rfl (by decide)

/-! ### C9: vocabulary version resolution -/

theorem toList_append (a b : String) : (a ++ b).toList = a.toList ++ b.toList := by
  cases a; cases b; rfl

theorem mk_toList (s : String) : String.mk s.toList = s := by
  cases s; rfl

theorem splitFirst_meta_head (tail : List Char) :
    splitFirst (":meta-model:".toList)
        ("urn:samm:org.eclipse.esmf.samm".toList ++ (":meta-model:".toList ++ tail))
      = some ("urn:samm:org.eclipse.esmf.samm".toList, tail) := by
  simp [splitFirst, List.isPrefixOf]

theorem splitFirst_marker_head (tail : List Char) :
    splitFirst ("org.eclipse.esmf.samm:meta-model:".toList)
        ("urn:samm:".toList ++ ("org.eclipse.esmf.samm:meta-model:".toList ++ tail))
      = some ("urn:samm:".toList, tail) := by
  simp [splitFirst, List.isPrefixOf]

theorem splitFirst_none_of_no_colon (S' : List Char) (xs : List Char)
    (h : ∀ c ∈ xs, c ≠ ':') : splitFirst (':' :: S') xs = none := by
  induction xs with
  | nil => rfl
  | cons c rest ih =>
    have hc : c ≠ ':' := h c (List.mem_cons_self c rest)
    have hpre : (':' :: S').isPrefixOf (c :: rest) = false := by
      simp [List.isPrefixOf_cons₂, Ne.symm hc]
    simp only [splitFirst, hpre, Bool.false_eq_true, if_false,
      ih (fun x hx => h x (List.mem_cons_of_mem c hx)), Option.map_none']

theorem rstripHash_append_hash (l : List Char) (h : ∀ c ∈ l, c ≠ '#') :
    rstripHash (String.mk (l ++ ['#'])) = String.mk l := by
  have htl : (String.mk (l ++ ['#'])).toList = l ++ ['#'] := rfl
  simp only [rstripHash, htl, List.reverse_append, List.reverse_cons,
    List.reverse_nil, List.nil_append, List.singleton_append]
  have hd : List.dropWhile (fun c => c = '#') ('#' :: l.reverse) =
      List.dropWhile (fun c => c = '#') l.reverse := by
    simp [List.dropWhile]
  rw [hd]
  have hself : List.dropWhile (fun c => c = '#') l.reverse = l.reverse := by
    cases hr : l.reverse with
    | nil => rfl
    | cons a as =>
      have ha : a ∈ l := by
        have : a ∈ l.reverse := by rw [hr]; exact List.mem_cons_self a as
        exact List.mem_reverse.mp this
      simp [List.dropWhile, h a ha]
  rw [hself, List.reverse_reverse]

/-- The decomposition of a templated meta-model namespace. -/
theorem sammNS_toList (v' : String) :
    (sammNS v').toList
      = "urn:samm:".toList
        ++ ("org.eclipse.esmf.samm:meta-model:".toList ++ (v'.toList ++ ['#'])) := by
  have h1 : sammNS v' = "urn:samm:org.eclipse.esmf.samm:meta-model:" ++ v' ++ "#" := rfl
  rw [h1, toList_append, toList_append]
  have h2 : "urn:samm:org.eclipse.esmf.samm:meta-model:".toList
      = "urn:samm:".toList ++ "org.eclipse.esmf.samm:meta-model:".toList := rfl
  rw [h2]
  simp [List.append_assoc]

theorem containsSub_sammNS (v' : String) :
    containsSub (sammNS v') "org.eclipse.esmf.samm:meta-model:" = true := by
  unfold containsSub
  rw [sammNS_toList, splitFirst_marker_head]
  rfl

theorem detect_at_match (v' : String) (hv : ∀ c ∈ v'.toList, c ≠ ':' ∧ c ≠ '#')
    (p : String) (post : List (String × String)) :
    detectSammVersion ((p, sammNS v') :: post) = v' := by
  simp only [detectSammVersion, containsSub_sammNS, if_true]
  have hsecond : pySplitSecond (sammNS v') ":meta-model:" = String.mk (v'.toList ++ ['#']) := by
    unfold pySplitSecond
    have hshape : (sammNS v').toList
        = "urn:samm:org.eclipse.esmf.samm".toList
          ++ (":meta-model:".toList ++ (v'.toList ++ ['#'])) := by
      rw [sammNS_toList]
      rfl
    rw [hshape, splitFirst_meta_head]
    have hnone : splitFirst [':', 'm', 'e', 't', 'a', '-', 'm', 'o', 'd', 'e', 'l', ':']
        (v'.data ++ ['#']) = none := by
      apply splitFirst_none_of_no_colon
      intro c hc
      rcases List.mem_append.mp hc with h1 | h1
      · exact (hv c h1).1
      · simp only [List.mem_singleton] at h1
        subst h1
        decide
    simp [hnone]
  rw [hsecond, rstripHash_append_hash v'.toList (fun c hc => (hv c hc).2), mk_toList]

/-- C9: vocabulary resolution — a binding matching the templated meta-model
pattern fixes the version for all four produced namespaces (meta-model,
characteristic, entity, unit) by substitution into the fixed templates; with
no matching binding the fixed baseline `"2.2.0"` is used for all four. -/
theorem vocabulary_version_resolution :
    (∀ (pre post : List (String × String)) (p v' : String),
      (∀ q ∈ pre, containsSub q.2 "org.eclipse.esmf.samm:meta-model:" = false) →
      (∀ c ∈ v'.toList, c ≠ ':' ∧ c ≠ '#') →
      detectNamespaces (pre ++ (p, sammNS v') :: post)
        = (sammNS v', sammCNS v', sammENS v', unitNS v')) ∧
    (∀ bindings : List (String × String),
      (∀ q ∈ bindings, containsSub q.2 "org.eclipse.esmf.samm:meta-model:" = false) →
      detectNamespaces bindings
        = (sammNS "2.2.0", sammCNS "2.2.0", sammENS "2.2.0", unitNS "2.2.0")) := by
  have hdet : ∀ (bindings : List (String × String)),
      (∀ q ∈ bindings, containsSub q.2 "org.eclipse.esmf.samm:meta-model:" = false) →
      detectSammVersion bindings = "2.2.0" := by
    intro bindings h
    induction bindings with
    | nil => rfl
    | cons q rest ih =>
      simp only [detectSammVersion, h q (List.mem_cons_self q rest),
        Bool.false_eq_true, if_false]
      exact ih (fun x hx => h x (List.mem_cons_of_mem q hx))
  constructor
  · intro pre post p v' hpre hv
    have hcore : detectSammVersion (pre ++ (p, sammNS v') :: post) = v' := by
      induction pre with
      | nil => exact detect_at_match v' hv p post
      | cons q rest ih =>
        simp only [List.cons_append, detectSammVersion,
          hpre q (List.mem_cons_self q rest), Bool.false_eq_true, if_false]
        exact ih (fun x hx => hpre x (List.mem_cons_of_mem q hx))
    simp [detectNamespaces, hcore]
  · intro bindings h
    simp [detectNamespaces, hdet bindings h]

/-- Witness for C9 at concrete bindings with version `"1.0.0"`. -/
theorem vocabulary_version_resolution_witness :
    detectNamespaces
        ([("x", "http://example.com#")] ++ ("samm", sammNS "1.0.0") :: [])
      = (sammNS "1.0.0", sammCNS "1.0.0", sammENS "1.0.0", unitNS "1.0.0") ∧
    detectNamespaces [("x", "http://example.com#")]
      = (sammNS "2.2.0", sammCNS "2.2.0", sammENS "2.2.0", unitNS "2.2.0") := by
  constructor
  · exact (vocabulary_version_resolution).1 [("x", "http://example.com#")] [] "samm" "1.0.0"
      (by intro q hq; simp only [List.mem_singleton] at hq; subst hq; rfl)
      (by decide)
  · exact (vocabulary_version_resolution).2 [("x", "http://example.com#")]
      (by intro q hq; simp only [List.mem_singleton] at hq; subst hq; rfl)



/-! ### C4: schema properties and required -/

set_option maxRecDepth 100000
set_option maxHeartbeats 1000000

/-! Dict lemmas -/

theorem dictLookup_dictInsert_self {α : Type} (d : List (String × α)) (k : String) (v : α) :
    dictLookup (dictInsert d k v) k = some v := by
  induction d with
  | nil => simp [dictInsert, dictLookup]
  | cons kv rest ih =>
    obtain ⟨k', v'⟩ := kv
    by_cases h : k' = k <;> simp [dictInsert, dictLookup, h, ih]

theorem dictLookup_dictInsert_ne {α : Type} (d : List (String × α)) (k k' : String)
    (v : α) (h : k' ≠ k) :
    dictLookup (dictInsert d k' v) k = dictLookup d k := by
  induction d with
  | nil => simp [dictInsert, dictLookup, h]
  | cons kv rest ih =>
    obtain ⟨k0, v0⟩ := kv
    by_cases h0 : k0 = k' <;> by_cases h1 : k0 = k <;>
      simp_all [dictInsert, dictLookup]

theorem dictInsert_keys_of_not_mem {α : Type} (d : List (String × α)) (k : String)
    (v : α) (h : dictLookup d k = none) :
    (dictInsert d k v).map Prod.fst = d.map Prod.fst ++ [k] := by
  induction d with
  | nil => simp [dictInsert]
  | cons kv rest ih =>
    obtain ⟨k0, v0⟩ := kv
    by_cases h0 : k0 = k
    · simp [dictLookup, h0] at h
    · simp only [dictLookup, h0, if_false] at h
      simp [dictInsert, h0, ih h]

/-- The payload key shared by both generators:
`prop.payload_name or local name`. -/
def propKey (p : Property) : String := pyStrOr p.payload_name (getLocalName p.urn)

/-- The `properties` map of a generated schema. -/
def schemaProperties (js : Json) : List (String × Json) :=
  match js with
  | .obj s =>
    match dictLookup s "properties" with
    | some (.obj ps) => ps
    | _ => []
  | _ => []

/-- The `required` list of a generated schema. -/
def schemaRequired (js : Json) : List String :=
  match js with
  | .obj s =>
    match dictLookup s "required" with
    | some (.arr xs) => xs.filterMap (fun x => match x with | .jStr t => some t | _ => none)
    | _ => []
  | _ => []

/-- Characterisation of the per-property schema loop: under distinct fresh
keys it appends exactly the non-skipped keys to the properties map and the
non-optional ones to the required list. -/
theorem schemaPropsLoop_spec (model : SAMMModel) :
    ∀ (props : List Property) (fuel : Nat) (defs : JSONSchemaGenerator.Defs)
      (accP : List (String × Json)) (accR : List String)
      (defs' : JSONSchemaGenerator.Defs) (P : List (String × Json)) (R : List String),
      JSONSchemaGenerator.schemaPropsLoop model fuel defs props accP accR
        = some (defs', P, R) →
      ((props.filter (fun q => !q.not_in_payload)).map propKey).Nodup →
      (∀ q ∈ props, q.not_in_payload = false → dictLookup accP (propKey q) = none) →
      P.map Prod.fst
          = accP.map Prod.fst ++ (props.filter (fun q => !q.not_in_payload)).map propKey ∧
      R = accR ++ (props.filter (fun q => (!q.not_in_payload) && !q.optional)).map propKey := by
  intro props
  induction props with
  | nil =>
    intro fuel defs accP accR defs' P R h _ _
    cases fuel with
    | zero => simp [JSONSchemaGenerator.schemaPropsLoop] at h
    | succ n =>
      simp only [JSONSchemaGenerator.schemaPropsLoop, Option.some.injEq,
        Prod.mk.injEq] at h
      obtain ⟨-, hP, hR⟩ := h
      subst hP; subst hR
      simp
  | cons p rest ih =>
    intro fuel defs accP accR defs' P R h hnodup hfresh
    cases fuel with
    | zero => simp [JSONSchemaGenerator.schemaPropsLoop] at h
    | succ n =>
      simp only [JSONSchemaGenerator.schemaPropsLoop] at h
      cases hnip : p.not_in_payload with
      | true =>
        rw [hnip] at h
        simp only [if_true] at h
        have hnodup' : ((rest.filter (fun q => !q.not_in_payload)).map propKey).Nodup := by
          simpa [List.filter_cons, hnip] using hnodup
        have hres := ih n defs accP accR defs' P R h hnodup'
          (fun q hq hq' => hfresh q (List.mem_cons_of_mem p hq) hq')
        simpa [List.filter_cons, hnip] using hres
      | false =>
        rw [hnip] at h
        simp only [Bool.false_eq_true, if_false, bind, Option.bind] at h
        rcases hps : JSONSchemaGenerator.generatePropertySchema model n defs p with _ | pr <;>
          rw [hps] at h
        · simp at h
        · obtain ⟨defs1, psch⟩ := pr
          have hkey : dictLookup accP (propKey p) = none :=
            hfresh p (List.mem_cons_self p rest) hnip
          have hconskeys :
              (dictInsert accP (propKey p) (.obj psch)).map Prod.fst
                = accP.map Prod.fst ++ [propKey p] :=
            dictInsert_keys_of_not_mem accP (propKey p) (.obj psch) hkey
          have hnodup0 : ((rest.filter (fun q => !q.not_in_payload)).map propKey).Nodup ∧
              propKey p ∉ (rest.filter (fun q => !q.not_in_payload)).map propKey := by
            have := hnodup
            simp only [List.filter_cons, hnip] at this
            simp only [Bool.not_false, if_true, List.map_cons, List.nodup_cons] at this
            exact ⟨this.2, this.1⟩
          have hfresh' : ∀ q ∈ rest, q.not_in_payload = false →
              dictLookup (dictInsert accP (propKey p) (.obj psch)) (propKey q) = none := by
            intro q hq hq'
            have hne : propKey p ≠ propKey q := by
              intro hcontra
              exact hnodup0.2 (hcontra ▸ List.mem_map_of_mem propKey
                (List.mem_filter.mpr ⟨hq, by simp [hq']⟩))
            rw [dictLookup_dictInsert_ne _ _ _ _ hne]
            exact hfresh q (List.mem_cons_of_mem p hq) hq'
          have hres := ih n defs1 (dictInsert accP (propKey p) (.obj psch))
            (if p.optional = true then accR else accR ++ [propKey p]) defs' P R ?_
            hnodup0.1 hfresh'
          · obtain ⟨hP, hR⟩ := hres
            constructor
            · rw [hP, hconskeys]
              simp [List.filter_cons, hnip, List.append_assoc, propKey]
            · rw [hR]
              cases hopt : p.optional <;>
                simp [List.filter_cons, hnip, hopt, List.append_assoc, propKey]
          · -- the recursive call in h matches after aligning the if on optional
            cases hopt : p.optional <;> rw [hopt] at h <;> simpa [propKey] using h


theorem filterMap_jStr (l : List String) :
    (l.map Json.jStr).filterMap
      (fun x => match x with | .jStr t => some t | _ => none) = l := by
  induction l with
  | nil => rfl
  | cons a as ih => simp [List.filterMap, ih]

theorem schemaProperties_buildTopSchema (a : Aspect) (defs : List (String × Json))
    (props : List (String × Json)) (req : List String) :
    schemaProperties (JSONSchemaGenerator.buildTopSchema a defs props req) = props := by
  have hne1 : ∀ (x : List (String × Json)) (y : Json),
      dictLookup (dictInsert x "definitions" y) "properties"
        = dictLookup x "properties" :=
    fun x y => dictLookup_dictInsert_ne x "properties" "definitions" y (by decide)
  have hne2 : ∀ (x : List (String × Json)) (y : Json),
      dictLookup (dictInsert x "required" y) "properties"
        = dictLookup x "properties" :=
    fun x y => dictLookup_dictInsert_ne x "properties" "required" y (by decide)
  simp only [JSONSchemaGenerator.buildTopSchema, schemaProperties]
  by_cases h4 : req.isEmpty <;> by_cases h5 : defs.isEmpty <;>
    simp [h4, h5, hne1, hne2, dictLookup_dictInsert_self]

theorem filterMap_comp_jStr (l : List String) :
    List.filterMap
      ((fun x => match x with | Json.jStr t => some t | _ => none) ∘ Json.jStr) l = l := by
  induction l with
  | nil => rfl
  | cons a as ih => simp [List.filterMap_cons, ih, Function.comp]

theorem schemaRequired_buildTopSchema (a : Aspect) (defs : List (String × Json))
    (props : List (String × Json)) (req : List String) :
    schemaRequired (JSONSchemaGenerator.buildTopSchema a defs props req) = req := by
  have hne1 : ∀ (x : List (String × Json)) (y : Json),
      dictLookup (dictInsert x "definitions" y) "required"
        = dictLookup x "required" :=
    fun x y => dictLookup_dictInsert_ne x "required" "definitions" y (by decide)
  have hne2 : ∀ (x : List (String × Json)) (y : Json),
      dictLookup (dictInsert x "properties" y) "required"
        = dictLookup x "required" :=
    fun x y => dictLookup_dictInsert_ne x "required" "properties" y (by decide)
  have hne3 : ∀ (x : List (String × Json)) (y : Json),
      dictLookup (dictInsert x "title" y) "required"
        = dictLookup x "required" :=
    fun x y => dictLookup_dictInsert_ne x "required" "title" y (by decide)
  have hne4 : ∀ (x : List (String × Json)) (y : Json),
      dictLookup (dictInsert x "description" y) "required"
        = dictLookup x "required" :=
    fun x y => dictLookup_dictInsert_ne x "required" "description" y (by decide)
  simp only [JSONSchemaGenerator.buildTopSchema, schemaRequired]
  rcases hd : a.description with _ | d <;> rcases ht : a.preferred_name with _ | t <;>
    rcases req with _ | ⟨r0, rs⟩ <;> by_cases h5 : defs.isEmpty <;>
    simp [hd, ht, h5, hne1, hne2, hne3, hne4, dictLookup_dictInsert_self, dictLookup,
      filterMap_jStr, filterMap_comp_jStr]

/-- C4: in the generated schema, a non-skipped aspect property contributes
exactly one `properties` entry keyed by its payload key, present in
`required` iff not optional; a `notInPayload` property is absent from both
(under pairwise-distinct payload keys). -/
theorem schema_properties_required (model : SAMMModel) (a : Aspect) (fuel : Nat)
    (p : Property) (js : Json)
    (hA : model.aspect = some a)
    (hp : p ∈ a.properties)
    (hkeys : ((a.properties).map propKey).Nodup)
    (hOk : JSONSchemaGenerator.generate model fuel = .ok js) :
    (p.not_in_payload = false →
      ((schemaProperties js).map Prod.fst).count (propKey p) = 1 ∧
      (propKey p ∈ schemaRequired js ↔ p.optional = false)) ∧
    (p.not_in_payload = true →
      propKey p ∉ (schemaProperties js).map Prod.fst ∧
      propKey p ∉ schemaRequired js) := by
  have hinj := List.inj_on_of_nodup_map hkeys
  have hkeysF : ((a.properties.filter (fun q => !q.not_in_payload)).map propKey).Nodup :=
    List.Nodup.sublist (List.Sublist.map propKey (List.filter_sublist _)) hkeys
  simp only [JSONSchemaGenerator.generate, hA] at hOk
  rcases hl : JSONSchemaGenerator.schemaPropsLoop model fuel [] a.properties [] []
    with _ | trip <;> rw [hl] at hOk
  · simp at hOk
  · obtain ⟨defs, props, req⟩ := trip
    simp only [Except.ok.injEq] at hOk
    subst hOk
    obtain ⟨hPmap, hRlist⟩ := schemaPropsLoop_spec model a.properties fuel [] [] []
      defs props req hl hkeysF (by intro q _ _; rfl)
    simp only [List.map_nil, List.nil_append] at hPmap hRlist
    rw [schemaProperties_buildTopSchema, schemaRequired_buildTopSchema, hPmap, hRlist]
    constructor
    · intro hnip
      have hmem : propKey p ∈ (a.properties.filter (fun q => !q.not_in_payload)).map propKey :=
        List.mem_map_of_mem propKey (List.mem_filter.mpr ⟨hp, by simp [hnip]⟩)
      refine ⟨List.count_eq_one_of_mem hkeysF hmem, ?_⟩
      constructor
      · intro hin
        rcases List.mem_map.mp hin with ⟨q, hq, hqk⟩
        have hq2 : (!q.not_in_payload && !q.optional) = true := (List.mem_filter.mp hq).2
        have hqp : q = p := hinj (List.mem_of_mem_filter hq) hp hqk
        subst hqp
        simp only [Bool.and_eq_true, Bool.not_eq_true'] at hq2
        exact hq2.2
      · intro hopt
        exact List.mem_map_of_mem propKey
          (List.mem_filter.mpr ⟨hp, by simp [hnip, hopt]⟩)
    · intro hnip
      constructor
      · intro hin
        rcases List.mem_map.mp hin with ⟨q, hq, hqk⟩
        have hq' := List.mem_filter.mp hq
        have hqp : q = p := hinj (List.mem_of_mem_filter hq) hp hqk
        subst hqp
        simp [hnip] at hq'
      · intro hin
        rcases List.mem_map.mp hin with ⟨q, hq, hqk⟩
        have hq' := List.mem_filter.mp hq
        have hqp : q = p := hinj (List.mem_of_mem_filter hq) hp hqk
        subst hqp
        simp [hnip] at hq'


def c4P1 : Property := .mk "u:a" none none [] none none false none false

def c4P2 : Property := .mk "u:b" none none [] none none true (some "bb") false

def c4P3 : Property := .mk "u:c" none none [] none none false none true

def c4A : Aspect := { urn := "u:A", properties := [c4P1, c4P2, c4P3] }

def c4Model : SAMMModel := { aspect := some c4A }

def c4Js : Json :=
  match JSONSchemaGenerator.generate c4Model 9 with
  | .ok j => j
  | .error _ => .null

/-- Witness for C4: a required, an optional (renamed) and a `notInPayload`
property. -/
theorem schema_properties_required_witness :
    JSONSchemaGenerator.generate c4Model 9 = .ok c4Js ∧
    (((schemaProperties c4Js).map Prod.fst).count (propKey c4P1) = 1 ∧
      (propKey c4P1 ∈ schemaRequired c4Js ↔ c4P1.optional = false)) ∧
    (propKey c4P3 ∉ (schemaProperties c4Js).map Prod.fst ∧
      propKey c4P3 ∉ schemaRequired c4Js) := by
  have hOk : JSONSchemaGenerator.generate c4Model 9 = .ok c4Js := rfl
  have hprops : c4A.properties = [c4P1, c4P2, c4P3] := rfl
  have hkeys : ((c4A.properties).map propKey).Nodup := by
    rw [hprops]
    decide
  refine ⟨hOk, ?_, ?_⟩
  · exact (schema_properties_required c4Model c4A 9 c4P1 c4Js rfl
      (by rw [hprops]; exact List.mem_cons_self _ _) hkeys hOk).1 rfl
  · exact (schema_properties_required c4Model c4A 9 c4P3 c4Js rfl
      (by rw [hprops]
          exact List.mem_cons_of_mem _ (List.mem_cons_of_mem _ (List.mem_cons_self _ _)))
      hkeys hOk).2 rfl


/-! ### C5: entity inheritance -/


theorem dictContains_dictInsert_mono {α : Type} (d : List (String × α)) (k k' : String)
    (v : α) (h : dictContains d k = true) :
    dictContains (dictInsert d k' v) k = true := by
  induction d with
  | nil => simp [dictContains] at h
  | cons kv rest ih =>
    obtain ⟨k0, v0⟩ := kv
    simp only [dictContains, Bool.or_eq_true, decide_eq_true_eq] at h
    by_cases h0 : k0 = k'
    · subst h0
      rcases h with h | h
      · subst h
        simp [dictInsert, dictContains]
      · simp [dictInsert, dictContains, h]
    · rcases h with h | h
      · subst h
        simp [dictInsert, h0, dictContains]
      · simp [dictInsert, h0, dictContains, ih h]

theorem dictContains_dictInsert_self {α : Type} (d : List (String × α)) (k : String)
    (v : α) : dictContains (dictInsert d k v) k = true := by
  induction d with
  | nil => simp [dictInsert, dictContains]
  | cons kv rest ih =>
    obtain ⟨k0, v0⟩ := kv
    by_cases h0 : k0 = k <;> simp [dictInsert, dictContains, h0, ih]

/-- The schema generator only ever adds definitions: every key present in
the incoming `definitions` dict is present in the outgoing one, for every
function of the recursive family. -/
theorem schemaDefs_monotone : ∀ fuel : Nat,
    (∀ model defs char r,
      JSONSchemaGenerator.generateCharacteristicSchema model fuel defs char = some r →
      ∀ k, dictContains defs k = true → dictContains r.1 k = true) ∧
    (∀ model defs dt r,
      JSONSchemaGenerator.ensureEntityDefinition model fuel defs dt = some r →
      ∀ k, dictContains defs k = true → dictContains r k = true) ∧
    (∀ model defs char r,
      JSONSchemaGenerator.generateCollectionSchema model fuel defs char = some r →
      ∀ k, dictContains defs k = true → dictContains r.1 k = true) ∧
    (∀ model defs char r,
      JSONSchemaGenerator.generateEitherSchema model fuel defs char = some r →
      ∀ k, dictContains defs k = true → dictContains r.1 k = true) ∧
    (∀ model defs char r,
      JSONSchemaGenerator.generateEntitySchema model fuel defs char = some r →
      ∀ k, dictContains defs k = true → dictContains r.1 k = true) ∧
    (∀ model defs entity r,
      JSONSchemaGenerator.generateEntityDefinition model fuel defs entity = some r →
      ∀ k, dictContains defs k = true → dictContains r.1 k = true) ∧
    (∀ model defs prop r,
      JSONSchemaGenerator.generatePropertySchema model fuel defs prop = some r →
      ∀ k, dictContains defs k = true → dictContains r.1 k = true) ∧
    (∀ model defs props accP accR r,
      JSONSchemaGenerator.schemaPropsLoop model fuel defs props accP accR = some r →
      ∀ k, dictContains defs k = true → dictContains r.1 k = true) := by
  intro fuel
  induction fuel with
  | zero =>
    refine ⟨?_, ?_, ?_, ?_, ?_, ?_, ?_, ?_⟩
    · intro model defs char r h
      simp [JSONSchemaGenerator.generateCharacteristicSchema] at h
    · intro model defs dt r h
      simp [JSONSchemaGenerator.ensureEntityDefinition] at h
    · intro model defs char r h
      simp [JSONSchemaGenerator.generateCollectionSchema] at h
    · intro model defs char r h
      simp [JSONSchemaGenerator.generateEitherSchema] at h
    · intro model defs char r h
      simp [JSONSchemaGenerator.generateEntitySchema] at h
    · intro model defs entity r h
      simp [JSONSchemaGenerator.generateEntityDefinition] at h
    · intro model defs prop r h
      simp [JSONSchemaGenerator.generatePropertySchema] at h
    · intro model defs props accP accR r h
      simp [JSONSchemaGenerator.schemaPropsLoop] at h
  | succ n ih =>
    obtain ⟨ihChar, ihEnsure, ihColl, ihEither, ihEnt, ihDef, ihProp, ihLoop⟩ := ih
    refine ⟨?_, ?_, ?_, ?_, ?_, ?_, ?_, ?_⟩
    · -- generateCharacteristicSchema
      intro model defs char r h k hk
      simp only [JSONSchemaGenerator.generateCharacteristicSchema] at h
      split at h
      · simp only [Option.some.injEq] at h; subst h; exact hk
      · split at h
        · exact ihColl model defs char r h k hk
        · split at h
          · exact ihEither model defs char r h k hk
          · split at h
            · simp only [Option.some.injEq] at h; subst h; exact hk
            · split at h
              · exact ihEnt model defs char r h k hk
              · split at h
                · simp only [Option.some.injEq] at h; subst h; exact hk
                · simp only [Option.some.injEq] at h; subst h; exact hk
    · -- ensureEntityDefinition
      intro model defs dt r h k hk
      simp only [JSONSchemaGenerator.ensureEntityDefinition] at h
      split at h
      · simp only [Option.some.injEq] at h; subst h; exact hk
      · rcases hle : dictLookup model.entities dt with _ | entity <;>
          simp only [hle] at h
        · simp only [Option.some.injEq] at h; subst h; exact hk
        · rcases hed : JSONSchemaGenerator.generateEntityDefinition model n defs entity
            with _ | pr <;> simp only [hed, bind, Option.bind] at h
          · exact absurd h (by simp)
          · obtain ⟨defs1, d1⟩ := pr
            simp only [pure, Option.some.injEq] at h
            subst h
            exact dictContains_dictInsert_mono _ _ _ _
              (ihDef model defs entity (defs1, d1) hed k hk)
    · -- generateCollectionSchema
      intro model defs char r h k hk
      simp only [JSONSchemaGenerator.generateCollectionSchema] at h
      rcases hec : char.element_characteristic with _ | ec <;> simp only [hec] at h
      · rcases hdt : char.data_type with _ | dt <;> simp only [hdt, bind, Option.bind] at h
        · simp only [pure, Option.some.injEq] at h; subst h; exact hk
        · split at h
          · simp only [pure, Option.some.injEq] at h; subst h; exact hk
          · split at h
            · rcases hen : JSONSchemaGenerator.ensureEntityDefinition model n defs dt
                with _ | d1 <;> simp only [hen] at h
              · exact absurd h (by simp)
              · simp only [pure, Option.some.injEq] at h
                subst h
                exact ihEnsure model defs dt d1 hen k hk
            · simp only [pure, Option.some.injEq] at h; subst h; exact hk
      · rcases hcs : JSONSchemaGenerator.generateCharacteristicSchema model n defs ec
          with _ | pr <;> simp only [hcs, bind, Option.bind] at h
        · exact absurd h (by simp)
        · obtain ⟨d1, items⟩ := pr
          simp only [pure, Option.some.injEq] at h
          subst h
          exact ihChar model defs ec (d1, items) hcs k hk
    · -- generateEitherSchema
      intro model defs char r h k hk
      simp only [JSONSchemaGenerator.generateEitherSchema] at h
      rcases hl : char.left with _ | l <;> simp only [hl, bind, Option.bind] at h
      · rcases hr : char.right with _ | rc <;> simp only [hr] at h
        · simp only [pure, Option.some.injEq] at h; subst h; exact hk
        · rcases hcs : JSONSchemaGenerator.generateCharacteristicSchema model n defs rc
            with _ | pr <;> simp only [hcs] at h
          · exact absurd h (by simp)
          · obtain ⟨d2, rs⟩ := pr
            simp only [pure, Option.some.injEq] at h
            subst h
            exact ihChar model defs rc (d2, rs) hcs k hk
      · rcases hcs : JSONSchemaGenerator.generateCharacteristicSchema model n defs l
          with _ | pr <;> simp only [hcs] at h
        · exact absurd h (by simp)
        · obtain ⟨d1, ls⟩ := pr
          have hk1 : dictContains d1 k = true := ihChar model defs l (d1, ls) hcs k hk
          rcases hr : char.right with _ | rc <;> simp only [hr] at h
          · simp only [pure, Option.some.injEq] at h; subst h; exact hk1
          · rcases hcs2 : JSONSchemaGenerator.generateCharacteristicSchema model n d1 rc
              with _ | pr2 <;> simp only [hcs2] at h
            · exact absurd h (by simp)
            · obtain ⟨d2, rs⟩ := pr2
              simp only [pure, Option.some.injEq] at h
              subst h
              exact ihChar model d1 rc (d2, rs) hcs2 k hk1
    · -- generateEntitySchema
      intro model defs char r h k hk
      simp only [JSONSchemaGenerator.generateEntitySchema] at h
      rcases hdt : char.data_type with _ | dt <;> simp only [hdt] at h
      · simp only [Option.some.injEq] at h; subst h; exact hk
      · split at h
        · simp only [Option.some.injEq] at h; subst h; exact hk
        · rcases hen : JSONSchemaGenerator.ensureEntityDefinition model n defs dt
            with _ | d1 <;> simp only [hen, bind, Option.bind] at h
          · exact absurd h (by simp)
          · simp only [pure, Option.some.injEq] at h
            subst h
            exact ihEnsure model defs dt d1 hen k hk
    · -- generateEntityDefinition
      intro model defs entity r h k hk
      simp only [JSONSchemaGenerator.generateEntityDefinition] at h
      rcases hx : entity.extendsUrn with _ | pUrn <;> simp only [hx, bind, Option.bind] at h
      · rcases hlp : JSONSchemaGenerator.schemaPropsLoop model n defs entity.properties [] []
          with _ | tr <;> simp only [hlp] at h
        · exact absurd h (by simp)
        · obtain ⟨d1, P, R⟩ := tr
          simp only [pure, Option.some.injEq] at h
          subst h
          exact ihLoop model defs entity.properties [] [] (d1, P, R) hlp k hk
      · split at h
        · rcases hlp : JSONSchemaGenerator.schemaPropsLoop model n defs entity.properties [] []
            with _ | tr <;> simp only [hlp] at h
          · exact absurd h (by simp)
          · obtain ⟨d1, P, R⟩ := tr
            simp only [pure, Option.some.injEq] at h
            subst h
            exact ihLoop model defs entity.properties [] [] (d1, P, R) hlp k hk
        · rcases hle : dictLookup model.entities pUrn with _ | parent <;>
            simp only [hle] at h
          · rcases hlp : JSONSchemaGenerator.schemaPropsLoop model n defs
                entity.properties [] [] with _ | tr <;> simp only [hlp] at h
            · exact absurd h (by simp)
            · obtain ⟨d1, P, R⟩ := tr
              simp only [pure, Option.some.injEq] at h
              subst h
              exact ihLoop model defs entity.properties [] [] (d1, P, R) hlp k hk
          · split at h
            · rcases hlp : JSONSchemaGenerator.schemaPropsLoop model n defs
                  entity.properties [] [] with _ | tr <;> simp only [hlp] at h
              · exact absurd h (by simp)
              · obtain ⟨d2, P, R⟩ := tr
                simp only [pure, Option.some.injEq] at h
                subst h
                exact ihLoop model defs entity.properties [] [] (d2, P, R) hlp k hk
            · rcases hed : JSONSchemaGenerator.generateEntityDefinition model n defs parent
                with _ | prd <;> simp only [hed] at h
              · exact absurd h (by simp)
              · obtain ⟨d1, pd⟩ := prd
                have hk1 : dictContains (dictInsert d1 (getLocalName pUrn) (.obj pd)) k = true :=
                  dictContains_dictInsert_mono _ _ _ _
                    (ihDef model defs parent (d1, pd) hed k hk)
                rcases hlp : JSONSchemaGenerator.schemaPropsLoop model n
                    (dictInsert d1 (getLocalName pUrn) (.obj pd)) entity.properties [] []
                  with _ | tr <;> simp only [hlp] at h
                · exact absurd h (by simp)
                · obtain ⟨d2, P, R⟩ := tr
                  simp only [pure, Option.some.injEq] at h
                  subst h
                  exact ihLoop model _ entity.properties [] [] (d2, P, R) hlp k hk1
    · -- generatePropertySchema
      intro model defs prop r h k hk
      simp only [JSONSchemaGenerator.generatePropertySchema] at h
      rcases hc : prop.characteristic with _ | c <;> simp only [hc, bind, Option.bind] at h
      · simp only [pure, Option.some.injEq] at h; subst h; exact hk
      · rcases hcs : JSONSchemaGenerator.generateCharacteristicSchema model n defs c
          with _ | pr <;> simp only [hcs] at h
        · exact absurd h (by simp)
        · obtain ⟨d1, cs⟩ := pr
          simp only [pure, Option.some.injEq] at h
          subst h
          exact ihChar model defs c (d1, cs) hcs k hk
    · -- schemaPropsLoop
      intro model defs props accP accR r h k hk
      rcases props with _ | ⟨p, rest⟩
      · simp only [JSONSchemaGenerator.schemaPropsLoop, Option.some.injEq] at h
        subst h
        exact hk
      · simp only [JSONSchemaGenerator.schemaPropsLoop] at h
        split at h
        · exact ihLoop model defs rest accP accR r h k hk
        · rcases hps : JSONSchemaGenerator.generatePropertySchema model n defs p
            with _ | pr
          · rw [hps] at h
            exact Option.noConfusion
              (show (Option.none :
                  Option (JSONSchemaGenerator.Defs × List (String × Json) × List String))
                = some r from h)
          · obtain ⟨d1, psch⟩ := pr
            rw [hps] at h
            have hk1 : dictContains d1 k = true := ihProp model defs p (d1, psch) hps k hk
            exact ihLoop model d1 rest _ _ r h k hk1


/-- Keys not produced by any listed property fall through to the incoming
accumulator. -/
theorem genPropFields_untouched (model : SAMMModel) (k : String) :
    ∀ (props : List Property) (fuel : Nat) (acc out : List (String × Json)),
      JSONInstanceGenerator.genPropFields model fuel props acc = some out →
      (props.any (fun q => !q.not_in_payload && (propKey q == k))) = false →
      dictLookup out k = dictLookup acc k := by
  intro props
  induction props with
  | nil =>
    intro fuel acc out h _
    cases fuel with
    | zero => simp [JSONInstanceGenerator.genPropFields] at h
    | succ n =>
      simp only [JSONInstanceGenerator.genPropFields, Option.some.injEq] at h
      subst h
      rfl
  | cons p rest ih =>
    intro fuel acc out h hany
    cases fuel with
    | zero => simp [JSONInstanceGenerator.genPropFields] at h
    | succ n =>
      simp only [List.any_cons, Bool.or_eq_false_iff] at hany
      obtain ⟨hp, hrest⟩ := hany
      simp only [JSONInstanceGenerator.genPropFields] at h
      split at h
      · exact ih n acc out h hrest
      · rcases hv : JSONInstanceGenerator.genPropValue model n p with _ | v
        · rw [hv] at h
          exact Option.noConfusion
            (show (Option.none : Option (List (String × Json))) = some out from h)
        · rw [hv] at h
          have hkey : propKey p ≠ k := by
            rename_i hnip
            simp only [Bool.and_eq_false_iff, Bool.not_eq_false] at hp
            rcases hp with hp | hp
            · exact absurd hp (by simpa using hnip)
            · simpa using hp
          have := ih n (dictInsert acc (pyStrOr p.payload_name (getLocalName p.urn)) v)
            out h hrest
          rw [this]
          exact dictLookup_dictInsert_ne _ _ _ _
            (show pyStrOr p.payload_name (getLocalName p.urn) ≠ k from hkey)
  
/-- Two runs of the shared property loop from different accumulators agree
on every key some listed property produces. -/
theorem genPropFields_touched_agree (model : SAMMModel) (k : String) :
    ∀ (props : List Property) (fuel : Nat) (acc1 acc2 out1 out2 : List (String × Json)),
      JSONInstanceGenerator.genPropFields model fuel props acc1 = some out1 →
      JSONInstanceGenerator.genPropFields model fuel props acc2 = some out2 →
      (props.any (fun q => !q.not_in_payload && (propKey q == k))) = true →
      dictLookup out1 k = dictLookup out2 k := by
  intro props
  induction props with
  | nil =>
    intro fuel acc1 acc2 out1 out2 h1 h2 hany
    simp at hany
  | cons p rest ih =>
    intro fuel acc1 acc2 out1 out2 h1 h2 hany
    cases fuel with
    | zero => simp [JSONInstanceGenerator.genPropFields] at h1
    | succ n =>
      simp only [JSONInstanceGenerator.genPropFields] at h1 h2
      by_cases hnip : p.not_in_payload = true
      · rw [if_pos hnip] at h1 h2
        have hrest : (rest.any (fun q => !q.not_in_payload && (propKey q == k))) = true := by
          simp only [List.any_cons, Bool.or_eq_true] at hany
          rcases hany with hpp | hpp
          · simp [hnip] at hpp
          · exact hpp
        exact ih n acc1 acc2 out1 out2 h1 h2 hrest
      · rw [if_neg hnip] at h1 h2
        rcases hv : JSONInstanceGenerator.genPropValue model n p with _ | v
        · rw [hv] at h1
          exact Option.noConfusion
            (show (Option.none : Option (List (String × Json))) = some out1 from h1)
        · rw [hv] at h1 h2
          by_cases hrest : (rest.any (fun q => !q.not_in_payload && (propKey q == k))) = true
          · exact ih n _ _ out1 out2 h1 h2 hrest
          · have hkey : propKey p = k := by
              simp only [List.any_cons, Bool.or_eq_true] at hany
              rcases hany with hpp | hpp
              · simp only [Bool.and_eq_true, beq_iff_eq] at hpp
                exact hpp.2
              · exact absurd hpp hrest
            have e1 := genPropFields_untouched model k rest n _ out1 h1
              (by simpa using hrest)
            have e2 := genPropFields_untouched model k rest n _ out2 h2
              (by simpa using hrest)
            rw [e1, e2]
            have hkey' : pyStrOr p.payload_name (getLocalName p.urn) = k := hkey
            rw [hkey', dictLookup_dictInsert_self, dictLookup_dictInsert_self]

/-- C5: for a child entity extending a registered parent, the schema
definition is `allOf [$ref parent, {type: object, properties: own}]` with
the parent definition recorded before the child's own properties are
processed (and still present afterwards); and the generated instance
agrees with the child's own fields on every key the child produces and
with the parent's fields on every other key — child wins on collisions. -/
theorem child_extends_schema_and_instance (model : SAMMModel) (fuel : Nat)
    (child parent : Entity) (pUrn : String)
    (hx : child.extendsUrn = some pUrn) (hne : pUrn ≠ "")
    (hlook : dictLookup model.entities pUrn = some parent) :
    (∀ defs defs' sch,
      JSONSchemaGenerator.generateEntityDefinition model (fuel + 1) defs child
        = some (defs', sch) →
      ∃ defs1 props req,
        dictContains defs1 (getLocalName pUrn) = true ∧
        JSONSchemaGenerator.schemaPropsLoop model fuel defs1 child.properties [] []
          = some (defs', props, req) ∧
        sch = [("allOf", .arr
          [.obj [("$ref", .jStr ("#/definitions/" ++ getLocalName pUrn))],
           .obj (JSONSchemaGenerator.finishTarget
             [("type", .jStr "object"), ("properties", .obj [])] props req)])] ∧
        dictContains defs' (getLocalName pUrn) = true) ∧
    (∀ inst pf own,
      JSONInstanceGenerator.generateEntityInstance model (fuel + 1) child = some inst →
      JSONInstanceGenerator.generateEntityInstance model fuel parent = some pf →
      JSONInstanceGenerator.genPropFields model fuel child.properties [] = some own →
      ∀ k,
        ((child.properties.any (fun q => !q.not_in_payload && (propKey q == k))) = true →
          dictLookup inst k = dictLookup own k) ∧
        ((child.properties.any (fun q => !q.not_in_payload && (propKey q == k))) = false →
          dictLookup inst k = dictLookup pf k)) := by
  constructor
  · intro defs defs' sch h
    simp only [JSONSchemaGenerator.generateEntityDefinition, hx] at h
    rw [if_neg hne] at h
    simp only [hlook] at h
    by_cases hmem : dictContains defs (getLocalName pUrn) = true
    · rw [if_pos hmem] at h
      simp only [bind, Option.bind, pure] at h
      rcases hlp : JSONSchemaGenerator.schemaPropsLoop model fuel defs
          child.properties [] [] with _ | tr
      · rw [hlp] at h
        exact absurd h (by simp)
      · obtain ⟨d2, P, R⟩ := tr
        rw [hlp] at h
        simp only [Option.some.injEq, Prod.mk.injEq] at h
        obtain ⟨hd, hs⟩ := h
        subst hd
        refine ⟨defs, P, R, hmem, hlp, hs.symm, ?_⟩
        exact (schemaDefs_monotone fuel).2.2.2.2.2.2.2 model defs child.properties
          [] [] _ hlp (getLocalName pUrn) hmem
    · rw [if_neg hmem] at h
      simp only [bind, Option.bind, pure] at h
      rcases hed : JSONSchemaGenerator.generateEntityDefinition model fuel defs parent
        with _ | prd
      · simp only [hed] at h
        exact Option.noConfusion h
      · obtain ⟨d1, pd⟩ := prd
        simp only [hed] at h
        rcases hlp : JSONSchemaGenerator.schemaPropsLoop model fuel
            (dictInsert d1 (getLocalName pUrn) (.obj pd)) child.properties [] []
          with _ | tr
        · simp only [hlp] at h
          exact Option.noConfusion h
        · obtain ⟨d2, P, R⟩ := tr
          simp only [hlp, Option.some.injEq, Prod.mk.injEq] at h
          obtain ⟨hd, hs⟩ := h
          subst hd
          refine ⟨dictInsert d1 (getLocalName pUrn) (.obj pd), P, R,
            dictContains_dictInsert_self _ _ _, hlp, hs.symm, ?_⟩
          exact (schemaDefs_monotone fuel).2.2.2.2.2.2.2 model _ child.properties
            [] [] _ hlp (getLocalName pUrn)
            (dictContains_dictInsert_self _ _ _)
  · intro inst pf own hinst hpf hown k
    have hinst' : JSONInstanceGenerator.genPropFields model fuel child.properties pf
        = some inst := by
      simp only [JSONInstanceGenerator.generateEntityInstance, hx] at hinst
      rw [if_neg hne] at hinst
      simp only [hlook, hpf, bind, Option.bind] at hinst
      exact hinst
    constructor
    · intro htouched
      exact genPropFields_touched_agree model k child.properties fuel pf [] inst own
        hinst' hown htouched
    · intro huntouched
      exact genPropFields_untouched model k child.properties fuel pf inst hinst' huntouched

def c5Text : Characteristic :=
  .mk "urn:x#TextChar" none none [] (some "http://www.w3.org/2001/XMLSchema#string")
    "Text" none [] none none none none none []

def c5PShared : Property :=
  .mk "urn:x#shared" none none [] (some c5Text) (some (.vStr "parentVal")) false none false

def c5POnly : Property :=
  .mk "urn:x#ponly" none none [] (some c5Text) (some (.vStr "fromParent")) false none false

def c5CShared : Property :=
  .mk "urn:x#cshared" none none [] (some c5Text) (some (.vStr "childVal")) false
    (some "shared") false

def c5Parent : Entity := { urn := "urn:x#Parent", properties := [c5PShared, c5POnly] }

def c5Child : Entity :=
  { urn := "urn:x#Child", properties := [c5CShared], extendsUrn := some "urn:x#Parent" }

def c5Model : SAMMModel :=
  { entities := [("urn:x#Parent", c5Parent), ("urn:x#Child", c5Child)] }

def c5SchemaOut : JSONSchemaGenerator.Defs × JSONSchemaGenerator.SchemaDict :=
  (JSONSchemaGenerator.generateEntityDefinition c5Model 9 [] c5Child).getD ([], [])

def c5Inst : List (String × Json) :=
  (JSONInstanceGenerator.generateEntityInstance c5Model 9 c5Child).getD []

def c5Pf : List (String × Json) :=
  (JSONInstanceGenerator.generateEntityInstance c5Model 8 c5Parent).getD []

def c5Own : List (String × Json) :=
  (JSONInstanceGenerator.genPropFields c5Model 8 c5Child.properties []).getD []

/-- Witness for C5: `u:Child` extends `u:Parent`; the parent lands in the
definitions map, the shared key takes the child's value and the
parent-only key is inherited. -/
theorem child_extends_schema_and_instance_witness :
    c5Child.extendsUrn = some "urn:x#Parent" ∧
    dictLookup c5Model.entities "urn:x#Parent" = some c5Parent ∧
    dictContains c5SchemaOut.1 "Parent" = true ∧
    dictLookup c5Inst "shared" = dictLookup c5Own "shared" ∧
    dictLookup c5Inst "ponly" = dictLookup c5Pf "ponly" := by
  have H := child_extends_schema_and_instance c5Model 8 c5Child c5Parent "urn:x#Parent"
    rfl (by decide) rfl
  refine ⟨rfl, rfl, ?_, ?_, ?_⟩
  · obtain ⟨d1, P, R, _, _, _, hc⟩ := H.1 [] c5SchemaOut.1 c5SchemaOut.2 rfl
    exact hc
  · exact (H.2 c5Inst c5Pf c5Own rfl rfl rfl "shared").1 rfl
  · exact (H.2 c5Inst c5Pf c5Own rfl rfl rfl "ponly").2 rfl


/-! ## C1: round-trip counterexample

A reference-free, cycle-free model holding a `decimal.Decimal` enumeration
value (the exact value type `_literal_to_python` produces for an
`xsd:decimal` literal).  `_python_to_literal` has no Decimal case and falls
back to `Literal(str(value))`, an untyped literal, which re-parses as a
plain `str`. -/

def c1CharUrn : String := "urn:samm:com.example:1.0.0#MyEnum"

def c1Char : Characteristic :=
  .mk c1CharUrn none none [] (some "http://www.w3.org/2001/XMLSchema#decimal")
    "Enumeration" none [.vDecimal "1.5"] none none none none none []

def c1Model : SAMMModel :=
  { characteristics := [(c1CharUrn, c1Char)],
    namespaceUri := "urn:samm:com.example:1.0.0#" }

/-- C1: the round-trip claim fails: for the model `c1Model` — one
self-contained Enumeration characteristic, so no dangling references and no
cycles — `build(write(M))` succeeds and reproduces the URN, kind tag and
dataType, but the enumeration value comes back as the string `"1.5"` where
the model held the decimal `1.5`: not every field value is reproduced. -/
theorem roundtrip_decimal_value_not_reproduced :
    (SAMMParser.parseGraph (SAMMWriter.writeGraph c1Model) 50).map
        (fun m => (dictLookup m.characteristics c1CharUrn).map
          (fun c => (c.urn, c.characteristic_type, c.data_type, c.values)))
      = some (some (c1CharUrn, "Enumeration",
          some "http://www.w3.org/2001/XMLSchema#decimal", [.vStr "1.5"])) ∧
    c1Char.values = [.vDecimal "1.5"] ∧
    c1Char.element_characteristic = none ∧ c1Char.left = none ∧
    c1Char.right = none ∧ c1Char.elements = [] ∧
    c1Model.aspect = none ∧ c1Model.entities = [] ∧ c1Model.properties = [] ∧
    c1Model.operations = [] ∧ c1Model.events = [] :=
  ⟨rfl, rfl, rfl, rfl, rfl, rfl, rfl, rfl, rfl, rfl, rfl⟩

end SammEditor
